import Mathlib

/-!
The combat resolver and mission engine of `war.c`.

A shallow embedding of the game logic of `src/war.c` (`atacar`,
`atribuirMissao`, `verificarMissaoCumprida`, `obterProgressoMissao`,
`gerenciarFaseDeAtaque`) together with the properties the specification
states about them.

Modelling conventions.

* C `int` values are `Int`.  The program registers troop counts that are not
  negative (`cadastrarTerritorio` rejects the others) and, from such counts,
  `atacar` only subtracts a battle loss of 1 from a positive count or from a
  defender that is then conquered, and a transfer bounded by the attacker's
  troops; the mission targets are bounded by the number of territories.  On
  the values the program reaches no operation leaves the range of `int`, so
  the two arithmetics agree.  `/` and `%` of C are `Int.tdiv` and `Int.tmod`.
* The fixed-size character buffers `nome`, `corExercito`, `corAlvo` and
  `descricao` are `String`s; `strcmp(a, b) == 0` is string equality and
  `strcpy` is assignment.
* An array handed over as a pointer and its length `totalTerritorios` is a
  `List`; `atacar` receives two distinct elements of it.
* `printf` output is not part of the state.
* Everything the code obtains from outside is read from an explicit
  environment `Ambiente`: the results of `rand()`, the integers delivered by
  `scanf("%d", ...)` and the outcome of each `realloc` call.
-/

namespace War

/-- The record `Territorio` of the source: name, army colour, troop count. -/
structure Territorio where
  nome : String
  corExercito : String
  quantidadeTropas : Int
  deriving DecidableEq, Repr

/-- The enumeration `MissaoTipo` of the source. -/
inductive MissaoTipo where
  | DESTRUIR_COR
  | CONQUISTAR_N_TERRITORIOS
  deriving DecidableEq, Repr

/-- The record `Missao` of the source. -/
structure Missao where
  tipo : MissaoTipo
  descricao : String
  corAlvo : String
  progressoTotal : Int
  deriving DecidableEq, Repr

/-- What the program reads from outside.
`gerador k` is the value returned by the `k`-th call of `rand()` (a
non-negative `int`), `sorteios` counts the calls made so far; `entrada` lists
the integers stored by the successive `scanf("%d", ...)` calls still to come;
`memoria k` tells whether the `k`-th call of `realloc` succeeds, `alocacoes`
counts the calls made so far. -/
structure Ambiente where
  gerador : Nat → Nat
  sorteios : Nat
  entrada : List Int
  memoria : Nat → Bool
  alocacoes : Nat

/-- One call of `rand()`. -/
def rand (e : Ambiente) : Int × Ambiente :=
  ((e.gerador e.sorteios : Int), { e with sorteios := e.sorteios + 1 })

/-- One call of `realloc`: `true` when a block is returned, `false` when the
call returns `NULL`. -/
def realloc (e : Ambiente) : Bool × Ambiente :=
  (e.memoria e.alocacoes, { e with alocacoes := e.alocacoes + 1 })

/-- A die throw of lines 257-258 of `atacar`, `(rand() % 6) + 1`. -/
def sortearDado (e : Ambiente) : Int × Ambiente :=
  (Int.tmod (rand e).1 6 + 1, (rand e).2)

/-- The loop `do { scanf("%d", &tropasParaMover); } while (tropasParaMover <
minTropas || tropasParaMover > maxTropas)` of `atacar`: the first value read
that lies in the range ends the loop.  `none` stands for a loop that never
ends because no value in the range is ever read. -/
def lerTropasParaMover (minTropas maxTropas : Int) : List Int → Option (Int × List Int)
  | [] => none
  | v :: resto =>
    if v < minTropas ∨ v > maxTropas then lerTropasParaMover minTropas maxTropas resto
    else some (v, resto)

/-- Lines 253-271 of `atacar`: the pair `(perdasAtaque, perdasDefesa)` decided
by the two dice. -/
def perdasDaBatalha (dadoAtaque dadoDefesa : Int) : Int × Int :=
  if dadoAtaque > dadoDefesa then (0, 1) else (1, 0)

/-- Lines 283-317 of `atacar`: the conquest check made on the two territories
once the battle losses have been subtracted. -/
def verificarConquista (atacante defensor : Territorio) (e : Ambiente) :
    Option (Int × Territorio × Territorio × Ambiente) :=
  if defensor.quantidadeTropas ≤ 0 then
    let defensor1 := { defensor with corExercito := atacante.corExercito }
    if atacante.quantidadeTropas > 1 then
      let minTropas : Int := 1
      let maxTropas : Int := atacante.quantidadeTropas - 1
      match lerTropasParaMover minTropas maxTropas e.entrada with
      | none => none
      | some (tropasParaMover, resto) =>
        some (1,
          { atacante with quantidadeTropas := atacante.quantidadeTropas - tropasParaMover },
          { defensor1 with quantidadeTropas := tropasParaMover },
          { e with entrada := resto })
    else
      some (1,
        { atacante with quantidadeTropas := atacante.quantidadeTropas - 1 },
        { defensor1 with quantidadeTropas := 1 },
        e)
  else
    some (0, atacante, defensor, e)

/-- The function `atacar` of the source, on two distinct territories.  The
result is the returned flag `conquistado`, the attacker and the defender after
the call and the environment left; `none` when the call never returns. -/
def atacar (atacante defensor : Territorio) (e : Ambiente) :
    Option (Int × Territorio × Territorio × Ambiente) :=
  if atacante.quantidadeTropas ≤ 1 then
    some (0, atacante, defensor, e)
  else
    let dadoAtaque := (sortearDado e).1
    let e1 := (sortearDado e).2
    let dadoDefesa := (sortearDado e1).1
    let e2 := (sortearDado e1).2
    let perdasAtaque := (perdasDaBatalha dadoAtaque dadoDefesa).1
    let perdasDefesa := (perdasDaBatalha dadoAtaque dadoDefesa).2
    verificarConquista
      { atacante with quantidadeTropas := atacante.quantidadeTropas - perdasAtaque }
      { defensor with quantidadeTropas := defensor.quantidadeTropas - perdasDefesa }
      e2

/-- An environment whose `rand()` yields the values of `rs` in turn (then 0),
whose `scanf` reads `ins` and whose allocations all succeed. -/
def ambienteDe (rs : List Nat) (ins : List Int) : Ambiente :=
  { gerador := fun k => rs.getD k 0, sorteios := 0, entrada := ins,
    memoria := fun _ => true, alocacoes := 0 }

/-- The text written by `sprintf(missao->descricao, "Conquistar %d territórios.", n)`. -/
def descricaoConquistar (n : Int) : String :=
  "Conquistar " ++ toString n ++ " territórios."

/-- The text written by `sprintf(missao->descricao, "Destruir completamente o
exército %s.", cor)`. -/
def descricaoDestruir (cor : String) : String :=
  "Destruir completamente o exército " ++ cor ++ "."

/-- The inner loop of lines 341-346 of `atribuirMissao`: the flag
`corJaExiste` after searching `coresInimigas` for the colour. -/
def corJaExiste (cor : String) : List String → Bool
  | [] => false
  | c :: resto => if c = cor then true else corJaExiste cor resto

/-- The outer loop of lines 337-364 of `atribuirMissao` over the territories
still to visit, with the colours collected so far.  The first component is
`none` when a `realloc` call fails (the function then returns its fallback
mission at once), otherwise the array `coresInimigas` at the end of the loop. -/
def coletarCoresInimigas (corJogador : String) :
    List Territorio → List String → Ambiente → Option (List String) × Ambiente
  | [], coresInimigas, e => (some coresInimigas, e)
  | t :: resto, coresInimigas, e =>
    if t.corExercito ≠ corJogador then
      if corJaExiste t.corExercito coresInimigas then
        coletarCoresInimigas corJogador resto coresInimigas e
      else if (realloc e).1 then
        coletarCoresInimigas corJogador resto (coresInimigas ++ [t.corExercito]) (realloc e).2
      else
        (none, (realloc e).2)
    else
      coletarCoresInimigas corJogador resto coresInimigas e

/-- The counting loops of lines 372-377 and 443-448: the number of territories
whose colour is `cor`, counted from 0 upwards along the array. -/
def contarTerritoriosDaCor (cor : String) (territorios : List Territorio) : Int :=
  territorios.foldl (fun n t => if t.corExercito = cor then n + 1 else n) 0

/-- The colour `corJogador = territorios[0].corExercito` of line 335.  With an
empty array the loop that follows never compares against it. -/
def corJogador (territorios : List Territorio) : String :=
  (territorios.head?.map Territorio.corExercito).getD ""

/-- The fallback of lines 355-357 and 380-382: the fields written are `tipo`,
`progressoTotal` and `descricao`; `corAlvo` keeps what it held. -/
def missaoPadrao (missao : Missao) : Missao :=
  { missao with
    tipo := MissaoTipo.CONQUISTAR_N_TERRITORIOS
    progressoTotal := 2
    descricao := descricaoConquistar 2 }

/-- The function `atribuirMissao` of the source.  `missao` is what the record
pointed to holds before the call, `territorios` the array, whose length is
`totalTerritorios`; the result is the record after the call and the
environment left. -/
def atribuirMissao (missao : Missao) (territorios : List Territorio) (e : Ambiente) :
    Missao × Ambiente :=
  let totalTerritorios : Int := territorios.length
  let tipoMissaoSorteada := Int.tmod (rand e).1 2
  let e1 := (rand e).2
  if tipoMissaoSorteada = 0 then
    match coletarCoresInimigas (corJogador territorios) territorios [] e1 with
    | (none, e2) => (missaoPadrao missao, e2)
    | (some coresInimigas, e2) =>
      let numCoresInimigas : Int := coresInimigas.length
      if numCoresInimigas > 0 then
        let corSorteada := Int.tmod (rand e2).1 numCoresInimigas
        let corAlvo := coresInimigas.getD corSorteada.toNat ""
        ({ missao with
           tipo := MissaoTipo.DESTRUIR_COR
           corAlvo := corAlvo
           descricao := descricaoDestruir corAlvo
           progressoTotal := contarTerritoriosDaCor corAlvo territorios },
         (rand e2).2)
      else
        (missaoPadrao missao, e2)
  else
    let minConquistas : Int := 2
    let maxConquistas : Int := Int.tdiv totalTerritorios 2
    let maxConquistas := if maxConquistas < minConquistas then minConquistas else maxConquistas
    let progressoTotal :=
      minConquistas + Int.tmod (rand e1).1 (maxConquistas - minConquistas + 1)
    ({ missao with
       tipo := MissaoTipo.CONQUISTAR_N_TERRITORIOS
       progressoTotal := progressoTotal
       descricao := descricaoConquistar progressoTotal },
     (rand e1).2)

/-- The loop of lines 417-422 of `verificarMissaoCumprida`: 0 as soon as a
territory of the target colour is met, 1 when the array ends without one. -/
def verificarCorDestruida (corAlvo : String) : List Territorio → Int
  | [] => 1
  | t :: resto => if t.corExercito = corAlvo then 0 else verificarCorDestruida corAlvo resto

/-- The function `verificarMissaoCumprida` of the source. -/
def verificarMissaoCumprida (missao : Missao) (territorios : List Territorio)
    (territoriosConquistados : Int) : Int :=
  match missao.tipo with
  | MissaoTipo.CONQUISTAR_N_TERRITORIOS =>
    if territoriosConquistados ≥ missao.progressoTotal then 1 else 0
  | MissaoTipo.DESTRUIR_COR => verificarCorDestruida missao.corAlvo territorios

/-- The function `obterProgressoMissao` of the source. -/
def obterProgressoMissao (missao : Missao) (territorios : List Territorio)
    (territoriosConquistados : Int) : Int :=
  match missao.tipo with
  | MissaoTipo.CONQUISTAR_N_TERRITORIOS => territoriosConquistados
  | MissaoTipo.DESTRUIR_COR =>
    missao.progressoTotal - contarTerritoriosDaCor missao.corAlvo territorios

/-- One `scanf("%d", &x)` that stores a number; `none` when no number is left
to read, in which case `x` stays uninitialised. -/
def lerInteiro (e : Ambiente) : Option (Int × Ambiente) :=
  match e.entrada with
  | [] => none
  | v :: resto => some (v, { e with entrada := resto })

/-- The function `gerenciarFaseDeAtaque` of the source: the array, the counter
`*territoriosConquistados` and the environment after the call.  `none` when
an index is used uninitialised or the call never returns. -/
def gerenciarFaseDeAtaque (territorios : List Territorio) (territoriosConquistados : Int)
    (e : Ambiente) : Option (List Territorio × Int × Ambiente) :=
  let totalTerritorios : Int := territorios.length
  match lerInteiro e with
  | none => none
  | some (idxAtacante, e1) =>
    if idxAtacante = 0 then some (territorios, territoriosConquistados, e1)
    else
      match lerInteiro e1 with
      | none => none
      | some (idxDefensor, e2) =>
        if idxAtacante > 0 ∧ idxAtacante ≤ totalTerritorios ∧
            idxDefensor > 0 ∧ idxDefensor ≤ totalTerritorios ∧
            idxAtacante ≠ idxDefensor then
          match territorios[(idxAtacante - 1).toNat]?, territorios[(idxDefensor - 1).toNat]? with
          | some atacante, some defensor =>
            if atacante.corExercito = defensor.corExercito then
              some (territorios, territoriosConquistados, e2)
            else
              match atacar atacante defensor e2 with
              | none => none
              | some (conquistado, atacante1, defensor1, e3) =>
                some ((territorios.set (idxAtacante - 1).toNat atacante1).set
                        (idxDefensor - 1).toNat defensor1,
                      if conquistado ≠ 0 then territoriosConquistados + 1
                      else territoriosConquistados,
                      e3)
          | _, _ => none
        else
          some (territorios, territoriosConquistados, e2)

/-- The specification's `missionComplete`: for ConquerCount,
`conquestCounter >= mission.targetCount`; for DestroyFaction, true iff no
territory currently has `faction == mission.targetFaction`. -/
def missionCompleteSpec (missao : Missao) (territorios : List Territorio)
    (conquestCounter : Int) : Bool :=
  match missao.tipo with
  | MissaoTipo.CONQUISTAR_N_TERRITORIOS => decide (conquestCounter ≥ missao.progressoTotal)
  | MissaoTipo.DESTRUIR_COR =>
    decide (∀ t ∈ territorios, t.corExercito ≠ missao.corAlvo)

/-- The specification's `missionProgress`: for ConquerCount the conquest
counter; for DestroyFaction `mission.targetCount` minus the number of
territories currently holding the target faction. -/
def missionProgressSpec (missao : Missao) (territorios : List Territorio)
    (conquestCounter : Int) : Int :=
  match missao.tipo with
  | MissaoTipo.CONQUISTAR_N_TERRITORIOS => conquestCounter
  | MissaoTipo.DESTRUIR_COR =>
    missao.progressoTotal -
      ((territorios.countP (fun t => decide (t.corExercito = missao.corAlvo)) : Nat) : Int)

/-- The specification's distinct faction tags of a list of tags, in order of
first appearance. -/
def coresDistintas : List String → List String
  | [] => []
  | c :: resto => c :: (coresDistintas resto).filter (fun d => decide (d ≠ c))

/-- The specification's set of enemy factions: the distinct faction tags
present among all territories, excluding the faction of the territory at
index 0. -/
def faccoesInimigasSpec (territorios : List Territorio) : List String :=
  coresDistintas
    ((territorios.map Territorio.corExercito).filter
      (fun c => decide (some c ≠ territorios.head?.map Territorio.corExercito)))

/-- An environment in which every `realloc` call fails. -/
def ambienteSemMemoria (rs : List Nat) (ins : List Int) : Ambiente :=
  { ambienteDe rs ins with memoria := fun _ => false }

/-- The scenario of the specification: A:red:5, B:blue:3, C:blue:2, D:green:1. -/
def cenario : List Territorio :=
  [⟨"A", "red", 5⟩, ⟨"B", "blue", 3⟩, ⟨"C", "blue", 2⟩, ⟨"D", "green", 1⟩]


/-- A run of `n` attack requests, as made by choosing "1. Atacar" `n` times
in the loop of `executarFaseDeAtaque`: `n` successive calls of
`gerenciarFaseDeAtaque`, each on the array, counter and environment left by
the one before. -/
def ataquesSucessivos : Nat → List Territorio → Int → Ambiente →
    Option (List Territorio × Int × Ambiente)
  | 0, territorios, territoriosConquistados, e => some (territorios, territoriosConquistados, e)
  | n + 1, territorios, territoriosConquistados, e =>
    match gerenciarFaseDeAtaque territorios territoriosConquistados e with
    | none => none
    | some (territorios1, territoriosConquistados1, e1) =>
      ataquesSucessivos n territorios1 territoriosConquistados1 e1

/-! ## Auxiliary facts -/

theorem sortearDado_faixa (e : Ambiente) : 1 ≤ (sortearDado e).1 ∧ (sortearDado e).1 ≤ 6 := by
  have h0 : (0 : Int) ≤ (e.gerador e.sorteios : Int) := Int.ofNat_nonneg _
  have h1 := Int.tmod_nonneg 6 h0
  have h2 := Int.tmod_lt_of_pos (e.gerador e.sorteios : Int) (by decide : (0 : Int) < 6)
  simp only [sortearDado, rand]
  omega

theorem sortearDado_ambiente (e : Ambiente) :
    (sortearDado e).2 = { e with sorteios := e.sorteios + 1 } := rfl

theorem lerTropasParaMover_primeiro (minTropas maxTropas t : Int) (antes depois : List Int)
    (hAntes : ∀ v ∈ antes, v < minTropas ∨ v > maxTropas)
    (hMin : minTropas ≤ t) (hMax : t ≤ maxTropas) :
    lerTropasParaMover minTropas maxTropas (antes ++ t :: depois) = some (t, depois) := by
  induction antes with
  | nil =>
    have h : ¬ (t < minTropas ∨ t > maxTropas) := by omega
    simp [lerTropasParaMover, h]
  | cons v resto ih =>
    have hv : v < minTropas ∨ v > maxTropas := hAntes v (List.mem_cons_self _ _)
    have hr : ∀ w ∈ resto, w < minTropas ∨ w > maxTropas :=
      fun w hw => hAntes w (List.mem_cons_of_mem _ hw)
    simp only [List.cons_append, lerTropasParaMover, hv, if_true]
    exact ih hr

theorem lerTropasParaMover_some (minTropas maxTropas t : Int) (l resto : List Int)
    (h : lerTropasParaMover minTropas maxTropas l = some (t, resto)) :
    minTropas ≤ t ∧ t ≤ maxTropas ∧
      ∃ antes, l = antes ++ t :: resto ∧ ∀ v ∈ antes, v < minTropas ∨ v > maxTropas := by
  induction l with
  | nil => simp [lerTropasParaMover] at h
  | cons v vs ih =>
    by_cases hv : v < minTropas ∨ v > maxTropas
    · simp only [lerTropasParaMover, hv, if_true] at h
      obtain ⟨h1, h2, antes, h3, h4⟩ := ih h
      refine ⟨h1, h2, v :: antes, by simp [h3], ?_⟩
      intro w hw
      rcases List.mem_cons.mp hw with hw | hw
      · exact hw ▸ hv
      · exact h4 w hw
    · simp only [lerTropasParaMover, hv, if_false, Option.some.injEq, Prod.mk.injEq] at h
      obtain ⟨h1, h2⟩ := h
      subst h1 h2
      exact ⟨by omega, by omega, [], rfl, by simp⟩

theorem atacar_executado (atacante defensor : Territorio) (e : Ambiente)
    (hTropas : atacante.quantidadeTropas > 1) :
    atacar atacante defensor e =
      verificarConquista
        ⟨atacante.nome, atacante.corExercito, atacante.quantidadeTropas -
          (perdasDaBatalha (sortearDado e).1 (sortearDado (sortearDado e).2).1).1⟩
        ⟨defensor.nome, defensor.corExercito, defensor.quantidadeTropas -
          (perdasDaBatalha (sortearDado e).1 (sortearDado (sortearDado e).2).1).2⟩
        { e with sorteios := e.sorteios + 2 } := by
  have hNao : ¬ atacante.quantidadeTropas ≤ 1 := by omega
  simp only [atacar, hNao, if_false]
  rfl

theorem verificarConquista_transfere (atacante defensor : Territorio) (e : Ambiente)
    (hDefensor : defensor.quantidadeTropas ≤ 0) (hMover : atacante.quantidadeTropas > 1) :
    verificarConquista atacante defensor e =
      match lerTropasParaMover 1 (atacante.quantidadeTropas - 1) e.entrada with
      | none => none
      | some (t, resto) =>
        some (1, ⟨atacante.nome, atacante.corExercito, atacante.quantidadeTropas - t⟩,
              ⟨defensor.nome, atacante.corExercito, t⟩,
              { e with entrada := resto }) := by
  simp only [verificarConquista, hDefensor, if_true, hMover]

theorem verificarConquista_resiste (atacante defensor : Territorio) (e : Ambiente)
    (hDefensor : defensor.quantidadeTropas > 0) :
    verificarConquista atacante defensor e = some (0, atacante, defensor, e) := by
  have hNao : ¬ defensor.quantidadeTropas ≤ 0 := by omega
  simp only [verificarConquista, hNao, if_false]

theorem verificarConquista_forcada (atacante defensor : Territorio) (e : Ambiente)
    (hDefensor : defensor.quantidadeTropas ≤ 0) (hMover : ¬ atacante.quantidadeTropas > 1) :
    verificarConquista atacante defensor e =
      some (1, ⟨atacante.nome, atacante.corExercito, atacante.quantidadeTropas - 1⟩,
            ⟨defensor.nome, atacante.corExercito, 1⟩, e) := by
  simp only [verificarConquista, hDefensor, if_true, hMover, if_false]

theorem lerTropasParaMover_existe (minTropas maxTropas : Int) (l : List Int)
    (h : ∃ v ∈ l, minTropas ≤ v ∧ v ≤ maxTropas) :
    ∃ t resto, lerTropasParaMover minTropas maxTropas l = some (t, resto) := by
  induction l with
  | nil =>
    obtain ⟨v, hv, _⟩ := h
    cases hv
  | cons w ws ih =>
    by_cases hw : w < minTropas ∨ w > maxTropas
    · obtain ⟨v, hv, h1, h2⟩ := h
      rcases List.mem_cons.mp hv with hEq | hMem
      · subst hEq
        omega
      · obtain ⟨t, resto, hLer⟩ := ih ⟨v, hMem, h1, h2⟩
        exact ⟨t, resto, by simp only [lerTropasParaMover, hw, if_true, hLer]⟩
    · exact ⟨w, ws, by simp only [lerTropasParaMover, hw, if_false]⟩

theorem perdasDaBatalha_casos (dadoAtaque dadoDefesa : Int) :
    (dadoAtaque > dadoDefesa ∧ perdasDaBatalha dadoAtaque dadoDefesa = (0, 1)) ∨
    (dadoAtaque ≤ dadoDefesa ∧ perdasDaBatalha dadoAtaque dadoDefesa = (1, 0)) := by
  by_cases h : dadoAtaque > dadoDefesa
  · exact Or.inl ⟨h, by simp [perdasDaBatalha, h]⟩
  · exact Or.inr ⟨by omega, by simp [perdasDaBatalha, h]⟩

/-- The shape of every result of an executed attack: the flag, the troops
left on both sides, the colours, and what was read. -/
theorem atacar_resultado (atacante defensor : Territorio) (e : Ambiente)
    (perdasAtaque perdasDefesa : Int)
    (hTropas : atacante.quantidadeTropas > 1)
    (hPerdas : perdasDaBatalha (sortearDado e).1 (sortearDado (sortearDado e).2).1 =
      (perdasAtaque, perdasDefesa)) :
    (defensor.quantidadeTropas - perdasDefesa > 0 →
      atacar atacante defensor e =
        some (0, ⟨atacante.nome, atacante.corExercito, atacante.quantidadeTropas - perdasAtaque⟩,
          ⟨defensor.nome, defensor.corExercito, defensor.quantidadeTropas - perdasDefesa⟩,
          { e with sorteios := e.sorteios + 2 })) ∧
    (defensor.quantidadeTropas - perdasDefesa ≤ 0 →
      ¬ atacante.quantidadeTropas - perdasAtaque > 1 →
      atacar atacante defensor e =
        some (1,
          ⟨atacante.nome, atacante.corExercito, atacante.quantidadeTropas - perdasAtaque - 1⟩,
          ⟨defensor.nome, atacante.corExercito, 1⟩,
          { e with sorteios := e.sorteios + 2 })) ∧
    (defensor.quantidadeTropas - perdasDefesa ≤ 0 →
      atacante.quantidadeTropas - perdasAtaque > 1 →
      atacar atacante defensor e =
        match lerTropasParaMover 1 (atacante.quantidadeTropas - perdasAtaque - 1) e.entrada with
        | none => none
        | some (t, resto) =>
          some (1,
            ⟨atacante.nome, atacante.corExercito,
              atacante.quantidadeTropas - perdasAtaque - t⟩,
            ⟨defensor.nome, atacante.corExercito, t⟩,
            { e with sorteios := e.sorteios + 2, entrada := resto })) := by
  refine ⟨?_, ?_, ?_⟩
  · intro h
    rw [atacar_executado atacante defensor e hTropas, hPerdas]
    exact verificarConquista_resiste _ _ _ h
  · intro h1 h2
    rw [atacar_executado atacante defensor e hTropas, hPerdas]
    exact verificarConquista_forcada _ _ _ h1 h2
  · intro h1 h2
    rw [atacar_executado atacante defensor e hTropas, hPerdas]
    exact verificarConquista_transfere _ _ _ h1 h2

/-! ## The combat resolver -/

/-- C1: an attacker with at most one troop cannot attack: whatever the
environment (and so whatever the dice would have been), `atacar` returns 0 and
hands back the attacker, the defender and the environment untouched; no die is
thrown. -/
theorem atacar_sem_tropas_suficientes (atacante defensor : Territorio) (e : Ambiente)
    (h : atacante.quantidadeTropas ≤ 1) :
    atacar atacante defensor e = some (0, atacante, defensor, e) := by
  simp [atacar, h]

theorem atacar_sem_tropas_suficientes_witness :
    (⟨"A", "red", 1⟩ : Territorio).quantidadeTropas ≤ 1 ∧
    atacar ⟨"A", "red", 1⟩ ⟨"C", "blue", 2⟩ (ambienteDe [5, 1] [3]) =
      some (0, ⟨"A", "red", 1⟩, ⟨"C", "blue", 2⟩, ambienteDe [5, 1] [3]) :=
  ⟨by decide, atacar_sem_tropas_suficientes ⟨"A", "red", 1⟩ ⟨"C", "blue", 2⟩
    (ambienteDe [5, 1] [3]) (by decide)⟩

/-- C2: in an attack that is carried out (attacker troops > 1) both dice lie
in 1..6 and exactly one side loses exactly one troop: the defender when the
attacker's die is strictly greater, otherwise (ties included) the attacker.
`atacar` continues with the conquest check on the territories so reduced, and
when the defender still has more than 0 troops it returns 0 with nothing else
changed (names and colours as before, two dice thrown). -/
theorem atacar_perda_unica (atacante defensor : Territorio) (e : Ambiente)
    (dadoAtaque dadoDefesa : Int)
    (hTropas : atacante.quantidadeTropas > 1)
    (hAtaque : (sortearDado e).1 = dadoAtaque)
    (hDefesa : (sortearDado (sortearDado e).2).1 = dadoDefesa) :
    (1 ≤ dadoAtaque ∧ dadoAtaque ≤ 6 ∧ 1 ≤ dadoDefesa ∧ dadoDefesa ≤ 6) ∧
    ∃ perdasAtaque perdasDefesa : Int,
      (dadoAtaque > dadoDefesa → perdasAtaque = 0 ∧ perdasDefesa = 1) ∧
      (dadoAtaque ≤ dadoDefesa → perdasAtaque = 1 ∧ perdasDefesa = 0) ∧
      atacar atacante defensor e =
        verificarConquista
          ⟨atacante.nome, atacante.corExercito, atacante.quantidadeTropas - perdasAtaque⟩
          ⟨defensor.nome, defensor.corExercito, defensor.quantidadeTropas - perdasDefesa⟩
          { e with sorteios := e.sorteios + 2 } ∧
      (defensor.quantidadeTropas - perdasDefesa > 0 →
        atacar atacante defensor e =
          some (0,
            ⟨atacante.nome, atacante.corExercito, atacante.quantidadeTropas - perdasAtaque⟩,
            ⟨defensor.nome, defensor.corExercito, defensor.quantidadeTropas - perdasDefesa⟩,
            { e with sorteios := e.sorteios + 2 })) := by
  have hNao : ¬ atacante.quantidadeTropas ≤ 1 := by omega
  have hA := sortearDado_faixa e
  have hD := sortearDado_faixa (sortearDado e).2
  rw [hAtaque] at hA
  rw [hDefesa] at hD
  refine ⟨⟨hA.1, hA.2, hD.1, hD.2⟩,
    (perdasDaBatalha dadoAtaque dadoDefesa).1, (perdasDaBatalha dadoAtaque dadoDefesa).2,
    ?_, ?_, ?_, ?_⟩
  · intro h
    simp [perdasDaBatalha, h]
  · intro h
    have h2 : ¬ dadoAtaque > dadoDefesa := by omega
    simp [perdasDaBatalha, h2]
  · simp only [atacar, hNao, if_false, hAtaque, hDefesa]
    rfl
  · intro hPos
    have hNeg : ¬ defensor.quantidadeTropas - (perdasDaBatalha dadoAtaque dadoDefesa).2 ≤ 0 := by
      omega
    simp only [atacar, hNao, if_false, hAtaque, hDefesa, verificarConquista, hNeg]
    rfl

theorem atacar_perda_unica_witness :
    (⟨"A", "red", 5⟩ : Territorio).quantidadeTropas > 1 ∧
    (1 ≤ (6 : Int) ∧ (6 : Int) ≤ 6 ∧ 1 ≤ (2 : Int) ∧ (2 : Int) ≤ 6) ∧
    ∃ perdasAtaque perdasDefesa : Int,
      ((6 : Int) > 2 → perdasAtaque = 0 ∧ perdasDefesa = 1) ∧
      ((6 : Int) ≤ 2 → perdasAtaque = 1 ∧ perdasDefesa = 0) ∧
      atacar ⟨"A", "red", 5⟩ ⟨"B", "blue", 3⟩ (ambienteDe [5, 1] []) =
        verificarConquista
          ⟨"A", "red", 5 - perdasAtaque⟩ ⟨"B", "blue", 3 - perdasDefesa⟩
          { ambienteDe [5, 1] [] with sorteios := (ambienteDe [5, 1] []).sorteios + 2 } ∧
      ((3 : Int) - perdasDefesa > 0 →
        atacar ⟨"A", "red", 5⟩ ⟨"B", "blue", 3⟩ (ambienteDe [5, 1] []) =
          some (0, ⟨"A", "red", 5 - perdasAtaque⟩, ⟨"B", "blue", 3 - perdasDefesa⟩,
            { ambienteDe [5, 1] [] with sorteios := (ambienteDe [5, 1] []).sorteios + 2 })) :=
  ⟨by decide, atacar_perda_unica ⟨"A", "red", 5⟩ ⟨"B", "blue", 3⟩ (ambienteDe [5, 1] []) 6 2
    (by decide) (by decide) (by decide)⟩

/-- C3: in an executed attack after whose battle loss the defender has at most
0 troops and the attacker has `a > 1` troops, every result `atacar` returns is
a conquest (flag 1): the defender takes the attacker's colour and a transfer
`t` with `1 ≤ t ≤ a - 1` is applied, `t` being the first value read in that
range (the out-of-range values read before it are discarded), leaving the
defender with `t` troops and the attacker with `a - t`, colours of the attacker
and names unchanged; and as soon as the input holds such a value `atacar` does
return that result. -/
theorem atacar_conquista_transfere (atacante defensor : Territorio) (e : Ambiente)
    (perdasAtaque perdasDefesa a : Int)
    (hTropas : atacante.quantidadeTropas > 1)
    (hPerdas : perdasDaBatalha (sortearDado e).1 (sortearDado (sortearDado e).2).1 =
      (perdasAtaque, perdasDefesa))
    (hDefensor : defensor.quantidadeTropas - perdasDefesa ≤ 0)
    (hA : a = atacante.quantidadeTropas - perdasAtaque)
    (hMover : a > 1) :
    (∀ r, atacar atacante defensor e = some r →
      ∃ t antes depois, 1 ≤ t ∧ t ≤ a - 1 ∧ e.entrada = antes ++ t :: depois ∧
        (∀ v ∈ antes, v < 1 ∨ v > a - 1) ∧
        r = (1, ⟨atacante.nome, atacante.corExercito, a - t⟩,
              ⟨defensor.nome, atacante.corExercito, t⟩,
              { e with sorteios := e.sorteios + 2, entrada := depois })) ∧
    (∀ t antes depois, 1 ≤ t → t ≤ a - 1 → e.entrada = antes ++ t :: depois →
      (∀ v ∈ antes, v < 1 ∨ v > a - 1) →
      atacar atacante defensor e =
        some (1, ⟨atacante.nome, atacante.corExercito, a - t⟩,
              ⟨defensor.nome, atacante.corExercito, t⟩,
              { e with sorteios := e.sorteios + 2, entrada := depois })) := by
  have hEq : atacar atacante defensor e =
      match lerTropasParaMover 1 (a - 1) e.entrada with
      | none => none
      | some (t, resto) =>
        some (1, ⟨atacante.nome, atacante.corExercito, a - t⟩,
              ⟨defensor.nome, atacante.corExercito, t⟩,
              { e with sorteios := e.sorteios + 2, entrada := resto }) := by
    rw [atacar_executado atacante defensor e hTropas, hPerdas,
      verificarConquista_transfere _ _ _ hDefensor (by show _ - _ > 1; omega), hA]
  constructor
  · intro r hr
    rw [hEq] at hr
    cases hLer : lerTropasParaMover 1 (a - 1) e.entrada with
    | none => simp [hLer] at hr
    | some p =>
      obtain ⟨t, resto⟩ := p
      simp only [hLer, Option.some.injEq] at hr
      obtain ⟨h1, h2, antes, h3, h4⟩ := lerTropasParaMover_some 1 (a - 1) t e.entrada resto hLer
      exact ⟨t, antes, resto, h1, h2, h3, h4, hr.symm⟩
  · intro t antes depois h1 h2 h3 h4
    rw [hEq, h3, lerTropasParaMover_primeiro 1 (a - 1) t antes depois h4 h1 h2]

theorem atacar_conquista_transfere_witness :
    (⟨"A", "red", 5⟩ : Territorio).quantidadeTropas > 1 ∧
    perdasDaBatalha (sortearDado (ambienteDe [5, 1] [9, 0, 3, 2])).1
      (sortearDado (sortearDado (ambienteDe [5, 1] [9, 0, 3, 2])).2).1 = (0, 1) ∧
    (⟨"D", "green", 1⟩ : Territorio).quantidadeTropas - 1 ≤ 0 ∧
    atacar ⟨"A", "red", 5⟩ ⟨"D", "green", 1⟩ (ambienteDe [5, 1] [9, 0, 3, 2]) =
      some (1, ⟨"A", "red", 5 - 3⟩, ⟨"D", "red", 3⟩,
        { ambienteDe [5, 1] [9, 0, 3, 2] with
          sorteios := (ambienteDe [5, 1] [9, 0, 3, 2]).sorteios + 2, entrada := [2] }) :=
  ⟨by decide, by decide, by decide,
    (atacar_conquista_transfere ⟨"A", "red", 5⟩ ⟨"D", "green", 1⟩
      (ambienteDe [5, 1] [9, 0, 3, 2]) 0 1 5 (by decide) (by decide) (by decide)
      (by decide) (by decide)).2 3 [9, 0] [2] (by decide) (by decide) rfl (by decide)⟩

/-- C4, as stated, fails: in the scenario (A:red:5 attacks C:blue:2 with dice
6 and 2) `atacar` returns 0 and C remains blue with 1 troop, so no result of
the form "returns 1, C red with `t` troops, A with `5 - t`" is produced. -/
theorem cenario_C_nao_conquistado :
    atacar ⟨"A", "red", 5⟩ ⟨"C", "blue", 2⟩ (ambienteDe [5, 1] [2]) =
      some (0, ⟨"A", "red", 5⟩, ⟨"C", "blue", 1⟩,
        { ambienteDe [5, 1] [2] with sorteios := 2 }) ∧
    ¬ ∃ (t : Int) (e2 : Ambiente), 1 ≤ t ∧ t ≤ 4 ∧
      atacar ⟨"A", "red", 5⟩ ⟨"C", "blue", 2⟩ (ambienteDe [5, 1] [2]) =
        some (1, ⟨"A", "red", 5 - t⟩, ⟨"C", "red", t⟩, e2) := by
  have h : atacar ⟨"A", "red", 5⟩ ⟨"C", "blue", 2⟩ (ambienteDe [5, 1] [2]) =
      some (0, ⟨"A", "red", 5⟩, ⟨"C", "blue", 1⟩,
        { ambienteDe [5, 1] [2] with sorteios := 2 }) := by rfl
  refine ⟨h, ?_⟩
  rintro ⟨t, e2, -, -, h2⟩
  rw [h] at h2
  simp at h2

/-- C4 amended: in the scenario (A:red:5 attacks C:blue:2, attacker die 6,
defender die 2) `atacar` returns 0, C stays blue with 1 troop and A keeps its
5 troops, no transfer being read.  A further attack of A on C in which the
attacker's die is again strictly greater conquers C: it returns 1, C becomes
red and, `t` in [1,4] being the transfer chosen, A is left with `5 - t` troops
and C with `t`. -/
theorem cenario_ataque_A_contra_C (e : Ambiente) (t : Int) (depois : List Int)
    (hAtaque : (sortearDado e).1 = 6)
    (hDefesa : (sortearDado (sortearDado e).2).1 = 2)
    (hSegundo : (sortearDado { e with sorteios := e.sorteios + 2 }).1 >
      (sortearDado (sortearDado { e with sorteios := e.sorteios + 2 }).2).1)
    (hEntrada : e.entrada = t :: depois)
    (hMin : 1 ≤ t) (hMax : t ≤ 4) :
    atacar ⟨"A", "red", 5⟩ ⟨"C", "blue", 2⟩ e =
      some (0, ⟨"A", "red", 5⟩, ⟨"C", "blue", 1⟩, { e with sorteios := e.sorteios + 2 }) ∧
    atacar ⟨"A", "red", 5⟩ ⟨"C", "blue", 1⟩ { e with sorteios := e.sorteios + 2 } =
      some (1, ⟨"A", "red", 5 - t⟩, ⟨"C", "red", t⟩,
        { e with sorteios := e.sorteios + 4, entrada := depois }) := by
  constructor
  · rw [atacar_executado _ _ e (by decide), hAtaque, hDefesa]
    exact verificarConquista_resiste _ _ _ (by decide)
  · have hPerdas : perdasDaBatalha (sortearDado { e with sorteios := e.sorteios + 2 }).1
        (sortearDado (sortearDado { e with sorteios := e.sorteios + 2 }).2).1 = (0, 1) := by
      simp only [perdasDaBatalha, hSegundo, if_true]
    have hLer : lerTropasParaMover 1 (5 - 0 - 1) e.entrada = some (t, depois) := by
      rw [hEntrada]
      exact lerTropasParaMover_primeiro 1 (5 - 0 - 1) t [] depois (by simp) hMin (by omega)
    rw [atacar_executado _ _ _ (by decide), hPerdas,
      verificarConquista_transfere _ _ _ (by decide) (by decide)]
    simp only [hLer]
    simp

theorem cenario_ataque_A_contra_C_witness :
    (sortearDado (ambienteDe [5, 1, 3, 2] [2, 7])).1 = 6 ∧
    (sortearDado (sortearDado (ambienteDe [5, 1, 3, 2] [2, 7])).2).1 = 2 ∧
    atacar ⟨"A", "red", 5⟩ ⟨"C", "blue", 2⟩ (ambienteDe [5, 1, 3, 2] [2, 7]) =
      some (0, ⟨"A", "red", 5⟩, ⟨"C", "blue", 1⟩,
        { ambienteDe [5, 1, 3, 2] [2, 7] with
          sorteios := (ambienteDe [5, 1, 3, 2] [2, 7]).sorteios + 2 }) ∧
    atacar ⟨"A", "red", 5⟩ ⟨"C", "blue", 1⟩
        { ambienteDe [5, 1, 3, 2] [2, 7] with
          sorteios := (ambienteDe [5, 1, 3, 2] [2, 7]).sorteios + 2 } =
      some (1, ⟨"A", "red", 5 - 2⟩, ⟨"C", "red", 2⟩,
        { ambienteDe [5, 1, 3, 2] [2, 7] with
          sorteios := (ambienteDe [5, 1, 3, 2] [2, 7]).sorteios + 4, entrada := [7] }) :=
  ⟨by decide, by decide,
    cenario_ataque_A_contra_C (ambienteDe [5, 1, 3, 2] [2, 7]) 2 [7]
      (by decide) (by decide) (by decide) rfl (by decide) (by decide)⟩

/-- C11: troop counts never become negative: with both troop counts at
least 0 before the call, whatever the dice and the transfer read, every result
of `atacar` leaves both territories with at least 0 troops; and `atacar` does
return as soon as the input holds the value 1, which every transfer prompt
accepts. -/
theorem atacar_tropas_nao_negativas (atacante defensor : Territorio) (e : Ambiente)
    (hAtacante : atacante.quantidadeTropas ≥ 0) (hDefensor : defensor.quantidadeTropas ≥ 0) :
    (∀ r, atacar atacante defensor e = some r →
      r.2.1.quantidadeTropas ≥ 0 ∧ r.2.2.1.quantidadeTropas ≥ 0) ∧
    (1 ∈ e.entrada → ∃ r, atacar atacante defensor e = some r) := by
  by_cases hTropas : atacante.quantidadeTropas ≤ 1
  · have hEq : atacar atacante defensor e = some (0, atacante, defensor, e) := by
      simp [atacar, hTropas]
    refine ⟨?_, fun _ => ⟨_, hEq⟩⟩
    intro r hr
    rw [hEq] at hr
    cases hr
    exact ⟨hAtacante, hDefensor⟩
  · have hExec : atacante.quantidadeTropas > 1 := by omega
    cases hP : perdasDaBatalha (sortearDado e).1 (sortearDado (sortearDado e).2).1 with
    | mk perdasAtaque perdasDefesa =>
      have hCasos := perdasDaBatalha_casos (sortearDado e).1 (sortearDado (sortearDado e).2).1
      rw [hP] at hCasos
      have hVal : (perdasAtaque = 0 ∧ perdasDefesa = 1) ∨ (perdasAtaque = 1 ∧ perdasDefesa = 0) := by
        rcases hCasos with ⟨_, h⟩ | ⟨_, h⟩
        · exact Or.inl ⟨congrArg Prod.fst h, congrArg Prod.snd h⟩
        · exact Or.inr ⟨congrArg Prod.fst h, congrArg Prod.snd h⟩
      obtain ⟨hResiste, hForcada, hTransfere⟩ :=
        atacar_resultado atacante defensor e perdasAtaque perdasDefesa hExec hP
      by_cases hConq : defensor.quantidadeTropas - perdasDefesa ≤ 0
      · by_cases hMover : atacante.quantidadeTropas - perdasAtaque > 1
        · have hEq := hTransfere hConq hMover
          constructor
          · intro r hr
            rw [hEq] at hr
            cases hLer : lerTropasParaMover 1 (atacante.quantidadeTropas - perdasAtaque - 1)
                e.entrada with
            | none => simp [hLer] at hr
            | some p =>
              obtain ⟨t, resto⟩ := p
              obtain ⟨h1, h2, -⟩ := lerTropasParaMover_some _ _ _ _ _ hLer
              simp only [hLer, Option.some.injEq] at hr
              subst hr
              exact ⟨by show _ - _ - t ≥ 0; omega, by show t ≥ 0; omega⟩
          · intro hUm
            obtain ⟨t, resto, hLer⟩ := lerTropasParaMover_existe 1
              (atacante.quantidadeTropas - perdasAtaque - 1) e.entrada
              ⟨1, hUm, le_refl _, by omega⟩
            rw [hEq, hLer]
            exact ⟨_, rfl⟩
        · have hEq := hForcada hConq hMover
          refine ⟨?_, fun _ => ⟨_, hEq⟩⟩
          intro r hr
          rw [hEq] at hr
          cases hr
          exact ⟨by show _ - _ - 1 ≥ 0; omega, by show (1 : Int) ≥ 0; omega⟩
      · have hEq := hResiste (by omega)
        refine ⟨?_, fun _ => ⟨_, hEq⟩⟩
        intro r hr
        rw [hEq] at hr
        cases hr
        exact ⟨by show _ - _ ≥ 0; omega, by show _ - _ ≥ 0; omega⟩

theorem atacar_tropas_nao_negativas_witness :
    (⟨"A", "red", 2⟩ : Territorio).quantidadeTropas ≥ 0 ∧
    (⟨"D", "green", 0⟩ : Territorio).quantidadeTropas ≥ 0 ∧
    atacar ⟨"A", "red", 2⟩ ⟨"D", "green", 0⟩ (ambienteDe [1, 5] [1]) =
      some (1, ⟨"A", "red", 0⟩, ⟨"D", "red", 1⟩,
        { ambienteDe [1, 5] [1] with sorteios := 2 }) ∧
    (⟨"A", "red", 0⟩ : Territorio).quantidadeTropas ≥ 0 ∧
    (⟨"D", "red", 1⟩ : Territorio).quantidadeTropas ≥ 0 :=
  ⟨by decide, by decide, rfl,
    (atacar_tropas_nao_negativas ⟨"A", "red", 2⟩ ⟨"D", "green", 0⟩ (ambienteDe [1, 5] [1])
      (by decide) (by decide)).1
      (1, ⟨"A", "red", 0⟩, ⟨"D", "red", 1⟩, { ambienteDe [1, 5] [1] with sorteios := 2 }) rfl⟩

/-- C13: on a conquest (defender at 0 troops or fewer after the battle loss)
in which the attacker is left with no more than 1 troop, `atacar` returns 1,
gives the defender the attacker's colour and 1 troop and leaves the attacker
with 0 troops, reading no transfer amount; on this path the attacker has
exactly 1 troop after the loss, had exactly 2 troops before the attack and
lost the roll (its die was not greater), and the defender had 0 troops or
fewer before the attack. -/
theorem atacar_conquista_forcada (atacante defensor : Territorio) (e : Ambiente)
    (perdasAtaque perdasDefesa : Int)
    (hTropas : atacante.quantidadeTropas > 1)
    (hPerdas : perdasDaBatalha (sortearDado e).1 (sortearDado (sortearDado e).2).1 =
      (perdasAtaque, perdasDefesa))
    (hConquista : defensor.quantidadeTropas - perdasDefesa ≤ 0)
    (hSemTropas : atacante.quantidadeTropas - perdasAtaque ≤ 1) :
    atacar atacante defensor e =
      some (1, ⟨atacante.nome, atacante.corExercito, 0⟩,
        ⟨defensor.nome, atacante.corExercito, 1⟩,
        { e with sorteios := e.sorteios + 2 }) ∧
    atacante.quantidadeTropas - perdasAtaque = 1 ∧
    atacante.quantidadeTropas = 2 ∧
    (sortearDado e).1 ≤ (sortearDado (sortearDado e).2).1 ∧
    perdasAtaque = 1 ∧ perdasDefesa = 0 ∧
    defensor.quantidadeTropas ≤ 0 := by
  have hCasos := perdasDaBatalha_casos (sortearDado e).1 (sortearDado (sortearDado e).2).1
  rw [hPerdas] at hCasos
  have hPerdeu : (sortearDado e).1 ≤ (sortearDado (sortearDado e).2).1 ∧
      perdasAtaque = 1 ∧ perdasDefesa = 0 := by
    rcases hCasos with ⟨_, h⟩ | ⟨hLe, h⟩
    · have h1 : perdasAtaque = 0 := congrArg Prod.fst h
      omega
    · exact ⟨hLe, congrArg Prod.fst h, congrArg Prod.snd h⟩
  obtain ⟨hLe, hPA, hPD⟩ := hPerdeu
  have hDois : atacante.quantidadeTropas = 2 := by omega
  have hEq := (atacar_resultado atacante defensor e perdasAtaque perdasDefesa hTropas
    hPerdas).2.1 hConquista (by omega)
  refine ⟨?_, by omega, hDois, hLe, hPA, hPD, by omega⟩
  rw [hEq, hDois, hPA]
  rfl

theorem atacar_conquista_forcada_witness :
    (⟨"A", "red", 2⟩ : Territorio).quantidadeTropas > 1 ∧
    perdasDaBatalha (sortearDado (ambienteDe [1, 5] [7])).1
      (sortearDado (sortearDado (ambienteDe [1, 5] [7])).2).1 = (1, 0) ∧
    atacar ⟨"A", "red", 2⟩ ⟨"D", "green", 0⟩ (ambienteDe [1, 5] [7]) =
      some (1, ⟨"A", "red", 0⟩, ⟨"D", "red", 1⟩,
        { ambienteDe [1, 5] [7] with sorteios := (ambienteDe [1, 5] [7]).sorteios + 2 }) ∧
    (⟨"A", "red", 2⟩ : Territorio).quantidadeTropas - 1 = 1 ∧
    (⟨"A", "red", 2⟩ : Territorio).quantidadeTropas = 2 ∧
    (sortearDado (ambienteDe [1, 5] [7])).1 ≤
      (sortearDado (sortearDado (ambienteDe [1, 5] [7])).2).1 ∧
    (1 : Int) = 1 ∧ (0 : Int) = 0 ∧
    (⟨"D", "green", 0⟩ : Territorio).quantidadeTropas ≤ 0 :=
  ⟨by decide, by decide,
    atacar_conquista_forcada ⟨"A", "red", 2⟩ ⟨"D", "green", 0⟩ (ambienteDe [1, 5] [7]) 1 0
      (by decide) (by decide) (by decide) (by decide)⟩

/-- C14: in an executed attack (attacker troops > 1) on a defender with at
least 1 troop, `atacar` returns 0 unless the attacker's die is strictly
greater and the defender had exactly 1 troop.  In that case every result is a
conquest (flag 1) reached through the transfer prompt: with `t` the amount
read, `1 ≤ t ≤ a - 1`, the attacker keeps `a - t ≥ 1` troops, the defender
holds `t`, and the two counts add up to one less than before the attack; the
call returns as soon as the input holds a value of that range.  So a returned
flag is 1 exactly when the attacker's die is strictly greater and the defender
had exactly 1 troop. -/
theorem atacar_conquista_sse (atacante defensor : Territorio) (e : Ambiente)
    (hTropas : atacante.quantidadeTropas > 1)
    (hDefensor : defensor.quantidadeTropas ≥ 1) :
    (¬ ((sortearDado e).1 > (sortearDado (sortearDado e).2).1 ∧
          defensor.quantidadeTropas = 1) →
      ∃ r, atacar atacante defensor e = some r ∧ r.1 = 0) ∧
    ((sortearDado e).1 > (sortearDado (sortearDado e).2).1 ∧
        defensor.quantidadeTropas = 1 →
      (∀ r, atacar atacante defensor e = some r →
        r.1 = 1 ∧
        ∃ t resto,
          lerTropasParaMover 1 (atacante.quantidadeTropas - 1) e.entrada = some (t, resto) ∧
          1 ≤ t ∧ t ≤ atacante.quantidadeTropas - 1 ∧
          r.2.1 = ⟨atacante.nome, atacante.corExercito, atacante.quantidadeTropas - t⟩ ∧
          r.2.2.1 = ⟨defensor.nome, atacante.corExercito, t⟩ ∧
          r.2.2.2 = { e with sorteios := e.sorteios + 2, entrada := resto } ∧
          r.2.1.quantidadeTropas ≥ 1 ∧
          r.2.1.quantidadeTropas + r.2.2.1.quantidadeTropas =
            atacante.quantidadeTropas + defensor.quantidadeTropas - 1) ∧
      ((∃ v ∈ e.entrada, 1 ≤ v ∧ v ≤ atacante.quantidadeTropas - 1) →
        ∃ r, atacar atacante defensor e = some r)) ∧
    (∀ r, atacar atacante defensor e = some r →
      (r.1 = 1 ↔ (sortearDado e).1 > (sortearDado (sortearDado e).2).1 ∧
        defensor.quantidadeTropas = 1)) := by
  cases hP : perdasDaBatalha (sortearDado e).1 (sortearDado (sortearDado e).2).1 with
  | mk perdasAtaque perdasDefesa =>
    have hCasos := perdasDaBatalha_casos (sortearDado e).1 (sortearDado (sortearDado e).2).1
    rw [hP] at hCasos
    obtain ⟨hResiste, -, hTransfere⟩ :=
      atacar_resultado atacante defensor e perdasAtaque perdasDefesa hTropas hP
    by_cases hCond : (sortearDado e).1 > (sortearDado (sortearDado e).2).1 ∧
        defensor.quantidadeTropas = 1
    · have hVal : perdasAtaque = 0 ∧ perdasDefesa = 1 := by
        rcases hCasos with ⟨_, h⟩ | ⟨hLe, _⟩
        · exact ⟨congrArg Prod.fst h, congrArg Prod.snd h⟩
        · omega
      obtain ⟨hPA, hPD⟩ := hVal
      have hEq := hTransfere (by omega) (by omega)
      rw [hPA, sub_zero] at hEq
      have hTodos : ∀ r, atacar atacante defensor e = some r →
          r.1 = 1 ∧
          ∃ t resto,
            lerTropasParaMover 1 (atacante.quantidadeTropas - 1) e.entrada = some (t, resto) ∧
            1 ≤ t ∧ t ≤ atacante.quantidadeTropas - 1 ∧
            r.2.1 = ⟨atacante.nome, atacante.corExercito, atacante.quantidadeTropas - t⟩ ∧
            r.2.2.1 = ⟨defensor.nome, atacante.corExercito, t⟩ ∧
            r.2.2.2 = { e with sorteios := e.sorteios + 2, entrada := resto } ∧
            r.2.1.quantidadeTropas ≥ 1 ∧
            r.2.1.quantidadeTropas + r.2.2.1.quantidadeTropas =
              atacante.quantidadeTropas + defensor.quantidadeTropas - 1 := by
        intro r hr
        rw [hEq] at hr
        cases hLer : lerTropasParaMover 1 (atacante.quantidadeTropas - 1) e.entrada with
        | none => simp [hLer] at hr
        | some p =>
          obtain ⟨t, resto⟩ := p
          obtain ⟨h1, h2, -⟩ := lerTropasParaMover_some _ _ _ _ _ hLer
          simp only [hLer, Option.some.injEq] at hr
          subst hr
          refine ⟨rfl, t, resto, rfl, h1, h2, rfl, rfl, rfl, ?_, ?_⟩
          · show atacante.quantidadeTropas - t ≥ 1
            omega
          · show atacante.quantidadeTropas - t + t = _
            omega
      refine ⟨fun hNao => absurd hCond hNao, fun _ => ⟨hTodos, ?_⟩, ?_⟩
      · intro hEntrada
        obtain ⟨t, resto, hLer⟩ := lerTropasParaMover_existe 1
          (atacante.quantidadeTropas - 1) e.entrada hEntrada
        rw [hEq, hLer]
        exact ⟨_, rfl⟩
      · intro r hr
        exact ⟨fun _ => hCond, fun _ => (hTodos r hr).1⟩
    · have hPos : defensor.quantidadeTropas - perdasDefesa > 0 := by
        rcases hCasos with ⟨hGt, h⟩ | ⟨_, h⟩
        · have hPD : perdasDefesa = 1 := congrArg Prod.snd h
          have hNe : defensor.quantidadeTropas ≠ 1 := fun h1 => hCond ⟨hGt, h1⟩
          omega
        · have hPD : perdasDefesa = 0 := congrArg Prod.snd h
          omega
      have hEq := hResiste hPos
      refine ⟨fun _ => ⟨_, hEq, rfl⟩, fun h => absurd h hCond, ?_⟩
      intro r hr
      rw [hEq] at hr
      cases hr
      constructor
      · intro h
        have hZero : (0 : Int) = 1 := h
        omega
      · intro h
        exact absurd h hCond

theorem atacar_conquista_sse_witness :
    (⟨"A", "red", 5⟩ : Territorio).quantidadeTropas > 1 ∧
    (⟨"D", "green", 1⟩ : Territorio).quantidadeTropas ≥ 1 ∧
    (atacar ⟨"A", "red", 5⟩ ⟨"D", "green", 1⟩ (ambienteDe [5, 1] [9, 3]) =
        some (1, ⟨"A", "red", 2⟩, ⟨"D", "red", 3⟩,
          { ambienteDe [5, 1] [9, 3] with sorteios := 2, entrada := [] }) ∧
      ((1 : Int) = 1 ↔ (sortearDado (ambienteDe [5, 1] [9, 3])).1 >
          (sortearDado (sortearDado (ambienteDe [5, 1] [9, 3])).2).1 ∧
        (⟨"D", "green", 1⟩ : Territorio).quantidadeTropas = 1)) :=
  ⟨by decide, by decide, rfl,
    (atacar_conquista_sse ⟨"A", "red", 5⟩ ⟨"D", "green", 1⟩ (ambienteDe [5, 1] [9, 3])
      (by decide) (by decide)).2.2
      (1, ⟨"A", "red", 2⟩, ⟨"D", "red", 3⟩,
        { ambienteDe [5, 1] [9, 3] with sorteios := 2, entrada := [] }) rfl⟩

/-! ## The mission engine -/

theorem contar_foldl (cor : String) (territorios : List Territorio) (n : Int) :
    territorios.foldl (fun n t => if t.corExercito = cor then n + 1 else n) n =
      n + ((territorios.countP (fun t => decide (t.corExercito = cor)) : Nat) : Int) := by
  induction territorios generalizing n with
  | nil => simp
  | cons t resto ih =>
    by_cases h : t.corExercito = cor
    · simp only [List.foldl_cons, h, if_true, ih, List.countP_cons, decide_True]
      push_cast
      omega
    · simp only [List.foldl_cons, h, if_false, ih, List.countP_cons, decide_False]
      simp

theorem contarTerritoriosDaCor_eq (cor : String) (territorios : List Territorio) :
    contarTerritoriosDaCor cor territorios =
      ((territorios.countP (fun t => decide (t.corExercito = cor)) : Nat) : Int) := by
  simp [contarTerritoriosDaCor, contar_foldl]

theorem verificarCorDestruida_valores (cor : String) (territorios : List Territorio) :
    verificarCorDestruida cor territorios = 1 ∨ verificarCorDestruida cor territorios = 0 := by
  induction territorios with
  | nil => simp [verificarCorDestruida]
  | cons t resto ih =>
    by_cases h : t.corExercito = cor
    · simp [verificarCorDestruida, h]
    · simpa [verificarCorDestruida, h] using ih

theorem verificarCorDestruida_iff (cor : String) (territorios : List Territorio) :
    verificarCorDestruida cor territorios = 1 ↔ ∀ t ∈ territorios, t.corExercito ≠ cor := by
  induction territorios with
  | nil => simp [verificarCorDestruida]
  | cons t resto ih =>
    by_cases h : t.corExercito = cor
    · simp [verificarCorDestruida, h]
    · simp [verificarCorDestruida, h, ih]

/-- C5: `verificarMissaoCumprida` returns 0 or 1 and agrees with the
specification's `missionComplete`.  For a ConquerCount mission it returns 1
iff the counter is at least `progressoTotal`, hence stays 1 when the counter
grows; for a DestroyFaction mission it returns 1 iff no territory of the array
has the colour `corAlvo`, whatever the counter and `progressoTotal` are. -/
theorem verificarMissaoCumprida_spec (missao : Missao) (territorios : List Territorio)
    (territoriosConquistados : Int) :
    (verificarMissaoCumprida missao territorios territoriosConquistados = 1 ∨
      verificarMissaoCumprida missao territorios territoriosConquistados = 0) ∧
    (verificarMissaoCumprida missao territorios territoriosConquistados = 1 ↔
      missionCompleteSpec missao territorios territoriosConquistados = true) ∧
    (missao.tipo = MissaoTipo.CONQUISTAR_N_TERRITORIOS →
      (verificarMissaoCumprida missao territorios territoriosConquistados = 1 ↔
        territoriosConquistados ≥ missao.progressoTotal) ∧
      ∀ c : Int, c ≥ territoriosConquistados →
        verificarMissaoCumprida missao territorios territoriosConquistados = 1 →
        verificarMissaoCumprida missao territorios c = 1) ∧
    (missao.tipo = MissaoTipo.DESTRUIR_COR →
      (verificarMissaoCumprida missao territorios territoriosConquistados = 1 ↔
        ∀ t ∈ territorios, t.corExercito ≠ missao.corAlvo) ∧
      ∀ c p : Int,
        verificarMissaoCumprida { missao with progressoTotal := p } territorios c =
          verificarMissaoCumprida missao territorios territoriosConquistados) := by
  cases hTipo : missao.tipo with
  | CONQUISTAR_N_TERRITORIOS =>
    have hIff : ∀ c : Int, verificarMissaoCumprida missao territorios c = 1 ↔
        c ≥ missao.progressoTotal := by
      intro c
      by_cases h : c ≥ missao.progressoTotal <;> simp [verificarMissaoCumprida, hTipo, h]
    refine ⟨?_, ?_, ?_, ?_⟩
    · by_cases h : territoriosConquistados ≥ missao.progressoTotal <;>
        simp [verificarMissaoCumprida, hTipo, h]
    · rw [hIff]
      simp [missionCompleteSpec, hTipo]
    · intro _
      refine ⟨hIff _, ?_⟩
      intro c hc h1
      rw [hIff] at h1 ⊢
      omega
    · intro h
      cases h
  | DESTRUIR_COR =>
    have hEq0 : verificarMissaoCumprida missao territorios territoriosConquistados =
        verificarCorDestruida missao.corAlvo territorios := by
      simp [verificarMissaoCumprida, hTipo]
    refine ⟨?_, ?_, ?_, ?_⟩
    · rw [hEq0]
      exact verificarCorDestruida_valores _ _
    · rw [hEq0, verificarCorDestruida_iff]
      simp [missionCompleteSpec, hTipo]
    · intro h
      cases h
    · intro _
      refine ⟨?_, ?_⟩
      · rw [hEq0, verificarCorDestruida_iff]
      · intro c p
        rw [hEq0]
        simp [verificarMissaoCumprida]

/-- C6: when `atribuirMissao` draws the ConquerCount kind (`rand() % 2` is not
0) the mission is a ConquerCount one whose target satisfies
`2 ≤ progressoTotal ≤ max(2, N/2)`, `N` being the number of territories and the
division the integer one, whatever the random source returns next; with
`N ≤ 5` the target is exactly 2. -/
theorem atribuirMissao_conquistar_faixa (missao : Missao) (territorios : List Territorio)
    (e : Ambiente) (hTipo : Int.tmod (rand e).1 2 ≠ 0) :
    (atribuirMissao missao territorios e).1.tipo = MissaoTipo.CONQUISTAR_N_TERRITORIOS ∧
    2 ≤ (atribuirMissao missao territorios e).1.progressoTotal ∧
    (atribuirMissao missao territorios e).1.progressoTotal ≤
      ((max 2 (territorios.length / 2) : Nat) : Int) ∧
    (territorios.length ≤ 5 → (atribuirMissao missao territorios e).1.progressoTotal = 2) := by
  have hDiv : Int.tdiv (territorios.length : Int) 2 = ((territorios.length / 2 : Nat) : Int) :=
    (Int.ofNat_tdiv _ _).symm
  have hR : (0 : Int) ≤ (rand (rand e).2).1 := Int.ofNat_nonneg _
  by_cases hMax : Int.tdiv (territorios.length : Int) 2 < 2
  · have hProg : (atribuirMissao missao territorios e).1.progressoTotal = 2 := by
      simp [atribuirMissao, hTipo, hMax]
    have hTp : (atribuirMissao missao territorios e).1.tipo =
        MissaoTipo.CONQUISTAR_N_TERRITORIOS := by
      simp [atribuirMissao, hTipo]
    refine ⟨hTp, ?_, ?_, ?_⟩
    · omega
    · rw [hProg]
      have : (2 : Nat) ≤ max 2 (territorios.length / 2) := le_max_left _ _
      exact_mod_cast this
    · intro _
      exact hProg
  · have hProg : (atribuirMissao missao territorios e).1.progressoTotal =
        2 + Int.tmod (rand (rand e).2).1 (Int.tdiv (territorios.length : Int) 2 - 2 + 1) := by
      simp [atribuirMissao, hTipo, hMax]
    have hTp : (atribuirMissao missao territorios e).1.tipo =
        MissaoTipo.CONQUISTAR_N_TERRITORIOS := by
      simp [atribuirMissao, hTipo]
    have hPos : (0 : Int) < Int.tdiv (territorios.length : Int) 2 - 2 + 1 := by omega
    have h1 := Int.tmod_nonneg (Int.tdiv (territorios.length : Int) 2 - 2 + 1) hR
    have h2 := Int.tmod_lt_of_pos (rand (rand e).2).1 hPos
    have hMaxNat : ((max 2 (territorios.length / 2) : Nat) : Int) =
        Int.tdiv (territorios.length : Int) 2 := by
      rw [hDiv]
      have : 2 ≤ territorios.length / 2 := by
        rw [hDiv] at hMax
        omega
      rw [max_eq_right this]
    refine ⟨hTp, ?_, ?_, ?_⟩
    · omega
    · rw [hMaxNat]
      omega
    · intro h5
      rw [hDiv] at hMax
      omega

theorem atribuirMissao_conquistar_faixa_witness :
    Int.tmod (rand (ambienteDe [1, 7] [])).1 2 ≠ 0 ∧
    (atribuirMissao ⟨MissaoTipo.DESTRUIR_COR, "", "", 0⟩ cenario
      (ambienteDe [1, 7] [])).1.tipo = MissaoTipo.CONQUISTAR_N_TERRITORIOS ∧
    2 ≤ (atribuirMissao ⟨MissaoTipo.DESTRUIR_COR, "", "", 0⟩ cenario
      (ambienteDe [1, 7] [])).1.progressoTotal ∧
    (atribuirMissao ⟨MissaoTipo.DESTRUIR_COR, "", "", 0⟩ cenario
      (ambienteDe [1, 7] [])).1.progressoTotal ≤ ((max 2 (cenario.length / 2) : Nat) : Int) ∧
    (cenario.length ≤ 5 →
      (atribuirMissao ⟨MissaoTipo.DESTRUIR_COR, "", "", 0⟩ cenario
        (ambienteDe [1, 7] [])).1.progressoTotal = 2) :=
  ⟨by decide, atribuirMissao_conquistar_faixa ⟨MissaoTipo.DESTRUIR_COR, "", "", 0⟩ cenario
    (ambienteDe [1, 7] []) (by decide)⟩

theorem corJaExiste_iff (cor : String) (cores : List String) :
    corJaExiste cor cores = true ↔ cor ∈ cores := by
  induction cores with
  | nil => simp [corJaExiste]
  | cons c resto ih =>
    by_cases h : c = cor
    · simp [corJaExiste, h]
    · have h2 : ¬ cor = c := fun hc => h hc.symm
      simp [corJaExiste, h, h2, ih]

theorem coresDistintas_mem (c : String) (l : List String) :
    c ∈ coresDistintas l ↔ c ∈ l := by
  induction l with
  | nil => simp [coresDistintas]
  | cons d resto ih =>
    by_cases h : c = d
    · simp [coresDistintas, h]
    · simp [coresDistintas, h, ih, List.mem_filter]

theorem coresDistintas_nodup (l : List String) : (coresDistintas l).Nodup := by
  induction l with
  | nil => simp [coresDistintas]
  | cons d resto ih =>
    simp only [coresDistintas, List.nodup_cons, List.mem_filter]
    exact ⟨by simp, ih.filter _⟩

theorem filtrar_cor_ja_coletada (c : String) (cores l : List String) (h : c ∈ cores) :
    (c :: l.filter (fun d => decide (d ≠ c))).filter (fun d => decide (d ∉ cores)) =
      l.filter (fun d => decide (d ∉ cores)) := by
  have hc : ¬ decide (c ∉ cores) = true := by simp [h]
  rw [List.filter_cons, if_neg hc, List.filter_filter]
  apply List.filter_congr
  intro d _
  by_cases hd : d ∈ cores
  · simp [hd]
  · have hdc : ¬ d = c := fun hEq => hd (hEq ▸ h)
    simp [hd, hdc]

theorem filtrar_cor_nova (c : String) (cores l : List String) (h : c ∉ cores) :
    (c :: l.filter (fun d => decide (d ≠ c))).filter (fun d => decide (d ∉ cores)) =
      c :: l.filter (fun d => decide (d ∉ cores ++ [c])) := by
  have hc : decide (c ∉ cores) = true := by simp [h]
  rw [List.filter_cons, if_pos hc, List.filter_filter]
  congr 1
  apply List.filter_congr
  intro d _
  by_cases hd : d ∈ cores
  · simp [hd]
  · by_cases hdc : d = c
    · simp [hdc]
    · simp [hd, hdc]

theorem inimigas_cons_jogador (cor : String) (t : Territorio) (resto : List Territorio)
    (h : t.corExercito = cor) :
    ((t :: resto).map Territorio.corExercito).filter (fun c => decide (c ≠ cor)) =
      (resto.map Territorio.corExercito).filter (fun c => decide (c ≠ cor)) := by
  have hc : ¬ decide (t.corExercito ≠ cor) = true := by simp [h]
  rw [List.map_cons, List.filter_cons, if_neg hc]

theorem inimigas_cons_inimigo (cor : String) (t : Territorio) (resto : List Territorio)
    (h : t.corExercito ≠ cor) :
    ((t :: resto).map Territorio.corExercito).filter (fun c => decide (c ≠ cor)) =
      t.corExercito :: (resto.map Territorio.corExercito).filter (fun c => decide (c ≠ cor)) := by
  have hc : decide (t.corExercito ≠ cor) = true := by simp [h]
  rw [List.map_cons, List.filter_cons, if_pos hc]

/-- The loop invariant of the collection of enemy colours: when every
`realloc` call succeeds, the colours collected are those held at the start
followed by the new distinct enemy colours in order of first appearance, and
no random number is drawn. -/
theorem coletarCoresInimigas_ok (cor : String) (territorios : List Territorio) :
    ∀ (cores : List String) (e : Ambiente),
      (∀ k, e.alocacoes ≤ k → e.memoria k = true) →
      ∃ e2, coletarCoresInimigas cor territorios cores e =
          (some (cores ++ (coresDistintas
            ((territorios.map Territorio.corExercito).filter (fun c => decide (c ≠ cor)))).filter
              (fun c => decide (c ∉ cores))), e2) ∧
        e2.gerador = e.gerador ∧ e2.sorteios = e.sorteios ∧ e2.entrada = e.entrada := by
  induction territorios with
  | nil =>
    intro cores e _
    exact ⟨e, by simp [coletarCoresInimigas, coresDistintas], rfl, rfl, rfl⟩
  | cons t resto ih =>
    intro cores e hMem
    by_cases hJog : t.corExercito = cor
    · obtain ⟨e2, h1, h2⟩ := ih cores e hMem
      refine ⟨e2, ?_, h2⟩
      rw [inimigas_cons_jogador cor t resto hJog, ← h1]
      simp only [coletarCoresInimigas, hJog, ne_eq, not_true_eq_false, if_false]
    · by_cases hJa : t.corExercito ∈ cores
      · obtain ⟨e2, h1, h2⟩ := ih cores e hMem
        refine ⟨e2, ?_, h2⟩
        have hEx : corJaExiste t.corExercito cores = true := (corJaExiste_iff _ _).mpr hJa
        rw [inimigas_cons_inimigo cor t resto hJog, coresDistintas,
          filtrar_cor_ja_coletada _ _ _ hJa, ← h1]
        simp only [coletarCoresInimigas, ne_eq, hJog, not_false_eq_true, if_true, hEx]
      · have hEx : corJaExiste t.corExercito cores = false := by
          cases hB : corJaExiste t.corExercito cores with
          | false => rfl
          | true => exact absurd ((corJaExiste_iff _ _).mp hB) hJa
        have hRe : (realloc e).1 = true := hMem e.alocacoes (le_refl _)
        have hMem2 : ∀ k, (realloc e).2.alocacoes ≤ k → (realloc e).2.memoria k = true := by
          intro k hk
          exact hMem k (by simp only [realloc] at hk; omega)
        obtain ⟨e2, h1, h2⟩ := ih (cores ++ [t.corExercito]) (realloc e).2 hMem2
        refine ⟨e2, ?_, h2⟩
        rw [inimigas_cons_inimigo cor t resto hJog, coresDistintas,
          filtrar_cor_nova _ _ _ hJa]
        rw [List.append_assoc, List.singleton_append] at h1
        rw [← h1]
        simp only [coletarCoresInimigas, ne_eq, hJog, not_false_eq_true, if_true, hEx,
          Bool.false_eq_true, if_false, hRe]

/-- With every `realloc` call succeeding, the DestroyFaction branch of
`atribuirMissao` collects the specification's list of enemy factions and, when
that list is not empty, targets its entry of index `r % k`, `r` being the
second random number and `k` the length of the list. -/
theorem atribuirMissao_destruir_eq (missao : Missao) (territorios : List Territorio)
    (e : Ambiente) (hTipo : Int.tmod (rand e).1 2 = 0)
    (hMemoria : ∀ k, e.alocacoes ≤ k → e.memoria k = true)
    (hNaoVazia : faccoesInimigasSpec territorios ≠ []) :
    (atribuirMissao missao territorios e).1 =
      { tipo := MissaoTipo.DESTRUIR_COR
        descricao := descricaoDestruir ((faccoesInimigasSpec territorios).getD
          (e.gerador (e.sorteios + 1) % (faccoesInimigasSpec territorios).length) "")
        corAlvo := (faccoesInimigasSpec territorios).getD
          (e.gerador (e.sorteios + 1) % (faccoesInimigasSpec territorios).length) ""
        progressoTotal := contarTerritoriosDaCor ((faccoesInimigasSpec territorios).getD
          (e.gerador (e.sorteios + 1) % (faccoesInimigasSpec territorios).length) "")
          territorios } := by
  have hSpec : faccoesInimigasSpec territorios =
      coresDistintas ((territorios.map Territorio.corExercito).filter
        (fun c => decide (c ≠ corJogador territorios))) := by
    cases territorios with
    | nil => rfl
    | cons t0 resto =>
      simp only [faccoesInimigasSpec, corJogador, List.head?_cons, Option.map_some',
        Option.getD_some]
      congr 1
      apply List.filter_congr
      intro c _
      simp
  have hMem2 : ∀ k, (rand e).2.alocacoes ≤ k → (rand e).2.memoria k = true := hMemoria
  obtain ⟨e2, hCol, hGer, hSort, -⟩ :=
    coletarCoresInimigas_ok (corJogador territorios) territorios [] (rand e).2 hMem2
  have hFiltro : (coresDistintas ((territorios.map Territorio.corExercito).filter
      (fun c => decide (c ≠ corJogador territorios)))).filter
        (fun c => decide (c ∉ ([] : List String))) = faccoesInimigasSpec territorios := by
    rw [hSpec]
    simp
  rw [List.nil_append, hFiltro] at hCol
  have hLen : 0 < (faccoesInimigasSpec territorios).length := List.length_pos.mpr hNaoVazia
  have hLenInt : ((faccoesInimigasSpec territorios).length : Int) > 0 := by exact_mod_cast hLen
  have hRand : (rand e2).1 = ((e.gerador (e.sorteios + 1) : Nat) : Int) := by
    simp only [rand, hGer, hSort]
  have hIdx : (Int.tmod (rand e2).1 ((faccoesInimigasSpec territorios).length : Int)).toNat =
      e.gerador (e.sorteios + 1) % (faccoesInimigasSpec territorios).length := by
    rw [hRand, ← Int.ofNat_tmod]
    exact Int.toNat_ofNat _
  simp only [atribuirMissao, hTipo, if_true, hCol, hLenInt, hIdx]

/-- C7, as stated, fails: in the scenario, whose territories B, C and D are
not of the colour of territory 0, `atribuirMissao` draws the DestroyFaction
kind and yet, the first `realloc` call failing, hands back a mission that is
not of type `DESTRUIR_COR`. -/
theorem atribuirMissao_destruir_sem_memoria :
    (∃ t ∈ cenario, ∃ t0 ∈ cenario.head?, t.corExercito ≠ t0.corExercito) ∧
    Int.tmod (rand (ambienteSemMemoria [0, 1] [])).1 2 = 0 ∧
    (atribuirMissao ⟨MissaoTipo.DESTRUIR_COR, "", "", 0⟩ cenario
      (ambienteSemMemoria [0, 1] [])).1.tipo ≠ MissaoTipo.DESTRUIR_COR := by
  refine ⟨⟨⟨"B", "blue", 3⟩, by decide, ⟨"A", "red", 5⟩, rfl, by decide⟩, by decide, by decide⟩

/-- C7 amended: for every territory array in which some territory's colour
differs from the colour of territory 0, when `atribuirMissao` draws the
DestroyFaction kind and every `realloc` call succeeds, the mission has type
`DESTRUIR_COR`; `corAlvo` is the entry of index `r mod k` of the `k` distinct
enemy colours in order of first appearance (`r` the second random number), so
it is the colour of some territory and differs from the colour of territory 0;
and `progressoTotal` is the number of territories of colour `corAlvo`, which is
at least 1. -/
theorem atribuirMissao_destruir (missao : Missao) (territorios : List Territorio)
    (e : Ambiente) (hTipo : Int.tmod (rand e).1 2 = 0)
    (hInimigo : ∃ t ∈ territorios, ∃ t0 ∈ territorios.head?,
      t.corExercito ≠ t0.corExercito)
    (hMemoria : ∀ k, e.alocacoes ≤ k → e.memoria k = true) :
    ∃ corAlvo : String,
      (faccoesInimigasSpec territorios)[e.gerador (e.sorteios + 1) %
        (faccoesInimigasSpec territorios).length]? = some corAlvo ∧
      (faccoesInimigasSpec territorios).Nodup ∧
      (∀ c, c ∈ faccoesInimigasSpec territorios ↔
        (∃ t ∈ territorios, t.corExercito = c) ∧
          ∀ t0 ∈ territorios.head?, c ≠ t0.corExercito) ∧
      (∃ t ∈ territorios, t.corExercito = corAlvo) ∧
      (∀ t0 ∈ territorios.head?, corAlvo ≠ t0.corExercito) ∧
      (atribuirMissao missao territorios e).1 =
        { tipo := MissaoTipo.DESTRUIR_COR
          descricao := "Destruir completamente o exército " ++ corAlvo ++ "."
          corAlvo := corAlvo
          progressoTotal :=
            ((territorios.countP (fun t => decide (t.corExercito = corAlvo)) : Nat) : Int) } ∧
      1 ≤ territorios.countP (fun t => decide (t.corExercito = corAlvo)) := by
  have hMembro : ∀ c, c ∈ faccoesInimigasSpec territorios ↔
      (∃ t ∈ territorios, t.corExercito = c) ∧
        ∀ t0 ∈ territorios.head?, c ≠ t0.corExercito := by
    intro c
    simp only [faccoesInimigasSpec, coresDistintas_mem, List.mem_filter, List.mem_map]
    cases territorios with
    | nil => simp
    | cons t0 resto => simp
  obtain ⟨t, ht, t0, ht0, hDif⟩ := hInimigo
  have hT : t.corExercito ∈ faccoesInimigasSpec territorios := by
    rw [hMembro]
    refine ⟨⟨t, ht, rfl⟩, ?_⟩
    intro u hu
    have : u = t0 := by
      rw [Option.mem_def] at hu ht0
      rw [hu] at ht0
      exact Option.some.inj ht0
    rw [this]
    exact hDif
  have hNaoVazia : faccoesInimigasSpec territorios ≠ [] := List.ne_nil_of_mem hT
  have hLen : 0 < (faccoesInimigasSpec territorios).length := List.length_pos.mpr hNaoVazia
  have hIdx : e.gerador (e.sorteios + 1) % (faccoesInimigasSpec territorios).length <
      (faccoesInimigasSpec territorios).length := Nat.mod_lt _ hLen
  have hGet : (faccoesInimigasSpec territorios)[e.gerador (e.sorteios + 1) %
      (faccoesInimigasSpec territorios).length]? =
        some ((faccoesInimigasSpec territorios).getD
          (e.gerador (e.sorteios + 1) % (faccoesInimigasSpec territorios).length) "") := by
    rw [List.getD_eq_getElem?_getD, List.getElem?_eq_getElem hIdx]
    rfl
  have hAlvo : (faccoesInimigasSpec territorios).getD
      (e.gerador (e.sorteios + 1) % (faccoesInimigasSpec territorios).length) "" ∈
        faccoesInimigasSpec territorios := by
    rw [List.mem_iff_getElem?]
    exact ⟨_, hGet⟩
  have hAlvo2 := (hMembro _).mp hAlvo
  refine ⟨_, hGet, coresDistintas_nodup _, hMembro, hAlvo2.1, hAlvo2.2, ?_, ?_⟩
  · rw [atribuirMissao_destruir_eq missao territorios e hTipo hMemoria hNaoVazia,
      contarTerritoriosDaCor_eq]
    rfl
  · obtain ⟨u, hu, hCor⟩ := hAlvo2.1
    exact List.countP_pos_iff.mpr ⟨u, hu, by simp [hCor]⟩

theorem atribuirMissao_destruir_witness :
    Int.tmod (rand (ambienteDe [0, 3] [])).1 2 = 0 ∧
    (∃ t ∈ cenario, ∃ t0 ∈ cenario.head?, t.corExercito ≠ t0.corExercito) ∧
    ∃ corAlvo : String,
      (faccoesInimigasSpec cenario)[(ambienteDe [0, 3] []).gerador
        ((ambienteDe [0, 3] []).sorteios + 1) % (faccoesInimigasSpec cenario).length]? =
          some corAlvo ∧
      (faccoesInimigasSpec cenario).Nodup ∧
      (∀ c, c ∈ faccoesInimigasSpec cenario ↔
        (∃ t ∈ cenario, t.corExercito = c) ∧ ∀ t0 ∈ cenario.head?, c ≠ t0.corExercito) ∧
      (∃ t ∈ cenario, t.corExercito = corAlvo) ∧
      (∀ t0 ∈ cenario.head?, corAlvo ≠ t0.corExercito) ∧
      (atribuirMissao ⟨MissaoTipo.CONQUISTAR_N_TERRITORIOS, "", "", 0⟩ cenario
          (ambienteDe [0, 3] [])).1 =
        { tipo := MissaoTipo.DESTRUIR_COR
          descricao := "Destruir completamente o exército " ++ corAlvo ++ "."
          corAlvo := corAlvo
          progressoTotal :=
            ((cenario.countP (fun t => decide (t.corExercito = corAlvo)) : Nat) : Int) } ∧
      1 ≤ cenario.countP (fun t => decide (t.corExercito = corAlvo)) :=
  ⟨by decide, ⟨⟨"B", "blue", 3⟩, by decide, ⟨"A", "red", 5⟩, rfl, by decide⟩,
    atribuirMissao_destruir ⟨MissaoTipo.CONQUISTAR_N_TERRITORIOS, "", "", 0⟩ cenario
      (ambienteDe [0, 3] []) (by decide)
      ⟨⟨"B", "blue", 3⟩, by decide, ⟨"A", "red", 5⟩, rfl, by decide⟩ (fun _ _ => rfl)⟩

theorem coletarCoresInimigas_sem_inimigos (cor : String) (territorios : List Territorio)
    (cores : List String) (e : Ambiente) (h : ∀ t ∈ territorios, t.corExercito = cor) :
    coletarCoresInimigas cor territorios cores e = (some cores, e) := by
  induction territorios with
  | nil => rfl
  | cons t resto ih =>
    have ht : t.corExercito = cor := h t (List.mem_cons_self _ _)
    have hr : ∀ u ∈ resto, u.corExercito = cor := fun u hu => h u (List.mem_cons_of_mem _ hu)
    simp only [coletarCoresInimigas, ht, ne_eq, not_true_eq_false, if_false]
    exact ih hr

theorem todos_da_cor_do_jogador (territorios : List Territorio)
    (h : ∀ t ∈ territorios, ∀ t0 ∈ territorios.head?, t.corExercito = t0.corExercito) :
    ∀ t ∈ territorios, t.corExercito = corJogador territorios := by
  cases territorios with
  | nil => simp
  | cons t0 resto =>
    intro t ht
    simpa [corJogador] using h t ht t0 (by simp)

/-- C8: when `atribuirMissao` draws the DestroyFaction kind (`rand() % 2` is
0) and no target can be produced, because every territory has the colour of
territory 0 or because the collection of the enemy colours stops on a failed
`realloc`, the mission handed back is the ConquerCount one with
`progressoTotal = 2` and description "Conquistar 2 territórios."; its type is
not `DESTRUIR_COR`. -/
theorem atribuirMissao_fallback (missao : Missao) (territorios : List Territorio)
    (e : Ambiente) (hTipo : Int.tmod (rand e).1 2 = 0)
    (hSemAlvo : (∀ t ∈ territorios, ∀ t0 ∈ territorios.head?,
        t.corExercito = t0.corExercito) ∨
      (coletarCoresInimigas (corJogador territorios) territorios [] (rand e).2).1 = none) :
    (atribuirMissao missao territorios e).1 =
      { tipo := MissaoTipo.CONQUISTAR_N_TERRITORIOS
        descricao := "Conquistar 2 territórios."
        corAlvo := missao.corAlvo
        progressoTotal := 2 } ∧
    (atribuirMissao missao territorios e).1.tipo ≠ MissaoTipo.DESTRUIR_COR := by
  have hPadrao : missaoPadrao missao =
      { tipo := MissaoTipo.CONQUISTAR_N_TERRITORIOS
        descricao := "Conquistar 2 territórios."
        corAlvo := missao.corAlvo
        progressoTotal := 2 } := by
    simp only [missaoPadrao]
    congr 1
  have hEq : (atribuirMissao missao territorios e).1 = missaoPadrao missao := by
    rcases hSemAlvo with h | h
    · have hCol := coletarCoresInimigas_sem_inimigos (corJogador territorios) territorios []
        (rand e).2 (todos_da_cor_do_jogador territorios h)
      simp [atribuirMissao, hTipo, hCol]
    · simp only [atribuirMissao, hTipo, if_true]
      generalize coletarCoresInimigas (corJogador territorios) territorios [] (rand e).2 = r at h ⊢
      obtain ⟨r1, r2⟩ := r
      simp only at h
      subst h
      rfl
  rw [hEq, hPadrao]
  exact ⟨rfl, by simp⟩

theorem atribuirMissao_fallback_witness :
    Int.tmod (rand (ambienteSemMemoria [0, 0] [])).1 2 = 0 ∧
    (coletarCoresInimigas (corJogador cenario) cenario []
      (rand (ambienteSemMemoria [0, 0] [])).2).1 = none ∧
    (atribuirMissao ⟨MissaoTipo.DESTRUIR_COR, "", "", 0⟩ cenario
        (ambienteSemMemoria [0, 0] [])).1 =
      { tipo := MissaoTipo.CONQUISTAR_N_TERRITORIOS
        descricao := "Conquistar 2 territórios."
        corAlvo := ""
        progressoTotal := 2 } ∧
    (atribuirMissao ⟨MissaoTipo.DESTRUIR_COR, "", "", 0⟩ cenario
        (ambienteSemMemoria [0, 0] [])).1.tipo ≠ MissaoTipo.DESTRUIR_COR :=
  ⟨by decide, by decide,
    atribuirMissao_fallback ⟨MissaoTipo.DESTRUIR_COR, "", "", 0⟩ cenario
      (ambienteSemMemoria [0, 0] []) (by decide) (Or.inr (by decide))⟩

/-- C9: `obterProgressoMissao` agrees with the specification's
`missionProgress`: the conquest counter for a ConquerCount mission,
`progressoTotal` minus the number of territories of colour `corAlvo` for a
DestroyFaction mission.  In the scenario the DestroyFaction mission assigned
against "blue" while B and C are blue has `progressoTotal = 2`; once B alone
has changed colour the progress is 1 and the mission is not complete, once C
has changed too the progress is 2 and the mission is complete. -/
theorem obterProgressoMissao_spec (missao : Missao) (territorios : List Territorio)
    (territoriosConquistados : Int) :
    obterProgressoMissao missao territorios territoriosConquistados =
      missionProgressSpec missao territorios territoriosConquistados ∧
    (missao.tipo = MissaoTipo.CONQUISTAR_N_TERRITORIOS →
      obterProgressoMissao missao territorios territoriosConquistados =
        territoriosConquistados) ∧
    (missao.tipo = MissaoTipo.DESTRUIR_COR →
      obterProgressoMissao missao territorios territoriosConquistados =
        missao.progressoTotal -
          ((territorios.countP (fun t => decide (t.corExercito = missao.corAlvo)) : Nat) :
            Int)) ∧
    (atribuirMissao missao cenario (ambienteDe [0, 0] [])).1 =
      ⟨MissaoTipo.DESTRUIR_COR, "Destruir completamente o exército blue.", "blue", 2⟩ ∧
    (∀ (descricao : String) (tropasB tropasC : Int),
      obterProgressoMissao ⟨MissaoTipo.DESTRUIR_COR, descricao, "blue", 2⟩
        [⟨"A", "red", 5⟩, ⟨"B", "red", tropasB⟩, ⟨"C", "blue", 2⟩, ⟨"D", "green", 1⟩]
        territoriosConquistados = 1 ∧
      verificarMissaoCumprida ⟨MissaoTipo.DESTRUIR_COR, descricao, "blue", 2⟩
        [⟨"A", "red", 5⟩, ⟨"B", "red", tropasB⟩, ⟨"C", "blue", 2⟩, ⟨"D", "green", 1⟩]
        territoriosConquistados = 0 ∧
      obterProgressoMissao ⟨MissaoTipo.DESTRUIR_COR, descricao, "blue", 2⟩
        [⟨"A", "red", 5⟩, ⟨"B", "red", tropasB⟩, ⟨"C", "red", tropasC⟩, ⟨"D", "green", 1⟩]
        territoriosConquistados = 2 ∧
      verificarMissaoCumprida ⟨MissaoTipo.DESTRUIR_COR, descricao, "blue", 2⟩
        [⟨"A", "red", 5⟩, ⟨"B", "red", tropasB⟩, ⟨"C", "red", tropasC⟩, ⟨"D", "green", 1⟩]
        territoriosConquistados = 1) := by
  refine ⟨?_, ?_, ?_, ?_, ?_⟩
  · cases hTipo : missao.tipo <;>
      simp [obterProgressoMissao, missionProgressSpec, hTipo, contarTerritoriosDaCor_eq]
  · intro hTipo
    simp [obterProgressoMissao, hTipo]
  · intro hTipo
    simp [obterProgressoMissao, hTipo, contarTerritoriosDaCor_eq]
  · rfl
  · intro descricao tropasB tropasC
    refine ⟨?_, ?_, ?_, ?_⟩
    · simp [obterProgressoMissao, contarTerritoriosDaCor]
    · simp [verificarMissaoCumprida, verificarCorDestruida]
    · simp [obterProgressoMissao, contarTerritoriosDaCor]
    · simp [verificarMissaoCumprida, verificarCorDestruida]

/-- Every colour the collection loop hands back was already collected or is
the colour of a territory visited, whatever the `realloc` calls do. -/
theorem coletarCoresInimigas_membros (cor : String) (territorios : List Territorio) :
    ∀ (cores : List String) (e : Ambiente) (coletadas : List String) (e2 : Ambiente),
      coletarCoresInimigas cor territorios cores e = (some coletadas, e2) →
      (∀ c ∈ coletadas, c ∈ cores ∨ ∃ t ∈ territorios, t.corExercito = c) ∧
      e2.gerador = e.gerador ∧ e2.sorteios = e.sorteios := by
  induction territorios with
  | nil =>
    intro cores e coletadas e2 h
    simp only [coletarCoresInimigas, Prod.mk.injEq, Option.some.injEq] at h
    obtain ⟨h1, h2⟩ := h
    subst h1 h2
    exact ⟨fun c hc => Or.inl hc, rfl, rfl⟩
  | cons t resto ih =>
    intro cores e coletadas e2 h
    have hSobe : ∀ (cs : List String) (e1 : Ambiente),
        (∀ c ∈ cs, c ∈ cores ∨ c = t.corExercito) →
        e1.gerador = e.gerador → e1.sorteios = e.sorteios →
        coletarCoresInimigas cor resto cs e1 = (some coletadas, e2) →
        (∀ c ∈ coletadas, c ∈ cores ∨ ∃ u ∈ t :: resto, u.corExercito = c) ∧
        e2.gerador = e.gerador ∧ e2.sorteios = e.sorteios := by
      intro cs e1 hCs hG hS hCol
      obtain ⟨hM, hG2, hS2⟩ := ih cs e1 coletadas e2 hCol
      refine ⟨?_, hG2.trans hG, hS2.trans hS⟩
      intro c hc
      rcases hM c hc with h1 | ⟨u, hu, hCor⟩
      · rcases hCs c h1 with h2 | h2
        · exact Or.inl h2
        · exact Or.inr ⟨t, List.mem_cons_self _ _, h2.symm⟩
      · exact Or.inr ⟨u, List.mem_cons_of_mem _ hu, hCor⟩
    by_cases hJog : t.corExercito = cor
    · simp only [coletarCoresInimigas, hJog, ne_eq, not_true_eq_false, if_false] at h
      exact hSobe cores e (fun c hc => Or.inl hc) rfl rfl h
    · cases hEx : corJaExiste t.corExercito cores with
      | true =>
        simp only [coletarCoresInimigas, ne_eq, hJog, not_false_eq_true, if_true, hEx] at h
        exact hSobe cores e (fun c hc => Or.inl hc) rfl rfl h
      | false =>
        cases hRe : (realloc e).1 with
        | true =>
          simp only [coletarCoresInimigas, ne_eq, hJog, not_false_eq_true, if_true, hEx,
            Bool.false_eq_true, if_false, hRe] at h
          refine hSobe (cores ++ [t.corExercito]) (realloc e).2 ?_ rfl rfl h
          intro c hc
          rcases List.mem_append.mp hc with h1 | h1
          · exact Or.inl h1
          · exact Or.inr (List.mem_singleton.mp h1)
        | false =>
          simp only [coletarCoresInimigas, ne_eq, hJog, not_false_eq_true, if_true, hEx,
            Bool.false_eq_true, if_false, hRe, Prod.mk.injEq] at h
          exact absurd h.1 (by simp)

/-- The three shapes of the mission `atribuirMissao` hands back: a ConquerCount
mission with a target of at least 2, the fallback mission, or a DestroyFaction
mission against the colour of some territory, with the number of territories
of that colour as target. -/
theorem atribuirMissao_formas (missao : Missao) (territorios : List Territorio)
    (e : Ambiente) :
    ((atribuirMissao missao territorios e).1.tipo = MissaoTipo.CONQUISTAR_N_TERRITORIOS ∧
      2 ≤ (atribuirMissao missao territorios e).1.progressoTotal) ∨
    ∃ corAlvo : String, (∃ t ∈ territorios, t.corExercito = corAlvo) ∧
      (atribuirMissao missao territorios e).1 =
        { tipo := MissaoTipo.DESTRUIR_COR
          descricao := descricaoDestruir corAlvo
          corAlvo := corAlvo
          progressoTotal := contarTerritoriosDaCor corAlvo territorios } := by
  by_cases hTipo : Int.tmod (rand e).1 2 = 0
  · simp only [atribuirMissao, hTipo, if_true]
    cases hCol : coletarCoresInimigas (corJogador territorios) territorios [] (rand e).2 with
    | mk resultado e2 =>
      cases resultado with
      | none => exact Or.inl ⟨rfl, by simp [missaoPadrao]⟩
      | some cores =>
        by_cases hLen : ((cores.length : Nat) : Int) > 0
        · right
          simp only [hLen, if_true]
          obtain ⟨hM, -, -⟩ := coletarCoresInimigas_membros (corJogador territorios)
            territorios [] (rand e).2 cores e2 hCol
          have hLenNat : 0 < cores.length := by exact_mod_cast hLen
          have hIdx : (Int.tmod (rand e2).1 (cores.length : Int)).toNat < cores.length := by
            have hR : (rand e2).1 = ((e2.gerador e2.sorteios : Nat) : Int) := rfl
            rw [hR, ← Int.ofNat_tmod, Int.toNat_ofNat]
            exact Nat.mod_lt _ hLenNat
          have hGet : cores.getD (Int.tmod (rand e2).1 (cores.length : Int)).toNat "" ∈ cores := by
            rw [List.getD_eq_getElem?_getD, List.getElem?_eq_getElem hIdx]
            exact List.getElem_mem _
          refine ⟨_, ?_, rfl⟩
          rcases hM _ hGet with h1 | h1
          · cases h1
          · exact h1
        · left
          simp only [hLen, if_false]
          exact ⟨rfl, by simp [missaoPadrao]⟩
  · left
    have hTp : (atribuirMissao missao territorios e).1.tipo =
        MissaoTipo.CONQUISTAR_N_TERRITORIOS := by
      simp [atribuirMissao, hTipo]
    refine ⟨hTp, ?_⟩
    have hR : (0 : Int) ≤ (rand (rand e).2).1 := Int.ofNat_nonneg _
    by_cases hMax : Int.tdiv (territorios.length : Int) 2 < 2
    · have hProg : (atribuirMissao missao territorios e).1.progressoTotal = 2 := by
        simp [atribuirMissao, hTipo, hMax]
      omega
    · have hProg : (atribuirMissao missao territorios e).1.progressoTotal =
          2 + Int.tmod (rand (rand e).2).1 (Int.tdiv (territorios.length : Int) 2 - 2 + 1) := by
        simp [atribuirMissao, hTipo, hMax]
      have h1 := Int.tmod_nonneg (Int.tdiv (territorios.length : Int) 2 - 2 + 1) hR
      omega

/-- C15: a freshly assigned mission is never already complete: whatever the
array, the random numbers and the `realloc` calls, the mission handed back by
`atribuirMissao` (of either kind, or the fallback), evaluated on the same
array with a conquest counter of 0, gives `verificarMissaoCumprida = 0` and
`obterProgressoMissao = 0`. -/
theorem atribuirMissao_nao_cumprida (missao : Missao) (territorios : List Territorio)
    (e : Ambiente) :
    verificarMissaoCumprida (atribuirMissao missao territorios e).1 territorios 0 = 0 ∧
    obterProgressoMissao (atribuirMissao missao territorios e).1 territorios 0 = 0 := by
  rcases atribuirMissao_formas missao territorios e with ⟨hTipo, hProg⟩ | ⟨corAlvo, hT, hEq⟩
  · have hNao : ¬ (0 : Int) ≥ (atribuirMissao missao territorios e).1.progressoTotal := by
      omega
    constructor
    · simp only [verificarMissaoCumprida, hTipo, hNao, if_false]
    · simp only [obterProgressoMissao, hTipo]
  · rw [hEq]
    constructor
    · show verificarCorDestruida corAlvo territorios = 0
      rcases verificarCorDestruida_valores corAlvo territorios with h1 | h0
      · obtain ⟨t, ht, hCor⟩ := hT
        exact absurd hCor ((verificarCorDestruida_iff corAlvo territorios).mp h1 t ht)
      · exact h0
    · show contarTerritoriosDaCor corAlvo territorios -
        contarTerritoriosDaCor corAlvo territorios = 0
      omega

/-! ## The attack phase -/

/-- C10: an attack request whose attacker or defender index (1-based) lies
outside `1..totalTerritorios`, or whose two indices are equal, or whose two
territories have the same colour, changes nothing: `gerenciarFaseDeAtaque`
returns with the array and the conquest counter as they were, no die thrown
and nothing read beyond the indices (the defender index is not even read when
the attacker index is 0). -/
theorem gerenciarFaseDeAtaque_pedido_invalido (territorios : List Territorio)
    (territoriosConquistados : Int) (e : Ambiente) (idxAtacante idxDefensor : Int)
    (resto : List Int)
    (hEntrada : e.entrada = idxAtacante :: idxDefensor :: resto)
    (hInvalido : idxAtacante < 1 ∨ idxAtacante > territorios.length ∨
      idxDefensor < 1 ∨ idxDefensor > territorios.length ∨
      idxAtacante = idxDefensor ∨
      ∃ atacante defensor, territorios[(idxAtacante - 1).toNat]? = some atacante ∧
        territorios[(idxDefensor - 1).toNat]? = some defensor ∧
        atacante.corExercito = defensor.corExercito) :
    gerenciarFaseDeAtaque territorios territoriosConquistados e =
      some (territorios, territoriosConquistados,
        { e with entrada := if idxAtacante = 0 then idxDefensor :: resto else resto }) := by
  have hLer1 : lerInteiro e = some (idxAtacante, { e with entrada := idxDefensor :: resto }) := by
    simp [lerInteiro, hEntrada]
  have hLer2 : lerInteiro { e with entrada := idxDefensor :: resto } =
      some (idxDefensor, { e with entrada := resto }) := by
    simp [lerInteiro]
  by_cases hZero : idxAtacante = 0
  · simp [gerenciarFaseDeAtaque, hLer1, hZero]
  · by_cases hValido : idxAtacante > 0 ∧ idxAtacante ≤ (territorios.length : Int) ∧
        idxDefensor > 0 ∧ idxDefensor ≤ (territorios.length : Int) ∧
        idxAtacante ≠ idxDefensor
    · have hCor : ∃ atacante defensor, territorios[(idxAtacante - 1).toNat]? = some atacante ∧
          territorios[(idxDefensor - 1).toNat]? = some defensor ∧
          atacante.corExercito = defensor.corExercito := by
        rcases hInvalido with h | h | h | h | h | h
        · omega
        · omega
        · omega
        · omega
        · exact absurd h hValido.2.2.2.2
        · exact h
      obtain ⟨atacante, defensor, hA, hD, hMesma⟩ := hCor
      simp only [gerenciarFaseDeAtaque, hLer1, hZero, if_false, hLer2, hValido, and_self,
        if_true, hA, hD, hMesma, ite_self]
    · simp only [gerenciarFaseDeAtaque, hLer1, hZero, if_false, hLer2, hValido]

theorem gerenciarFaseDeAtaque_pedido_invalido_witness :
    (ambienteDe [5, 1] [2, 3, 4]).entrada = 2 :: 3 :: [4] ∧
    (∃ atacante defensor, cenario[((2 : Int) - 1).toNat]? = some atacante ∧
        cenario[((3 : Int) - 1).toNat]? = some defensor ∧
        atacante.corExercito = defensor.corExercito) ∧
    gerenciarFaseDeAtaque cenario 0 (ambienteDe [5, 1] [2, 3, 4]) =
      some (cenario, 0,
        { ambienteDe [5, 1] [2, 3, 4] with
          entrada := if (2 : Int) = 0 then 3 :: [4] else [4] }) :=
  ⟨rfl, ⟨⟨"B", "blue", 3⟩, ⟨"C", "blue", 2⟩, rfl, rfl, rfl⟩,
    gerenciarFaseDeAtaque_pedido_invalido cenario 0 (ambienteDe [5, 1] [2, 3, 4]) 2 3 [4] rfl
      (Or.inr (Or.inr (Or.inr (Or.inr (Or.inr
        ⟨⟨"B", "blue", 3⟩, ⟨"C", "blue", 2⟩, rfl, rfl, rfl⟩)))))⟩

/-- The colours after an attack: the attacker keeps its colour, the defender
keeps its own or takes the attacker's. -/
theorem atacar_cores (atacante defensor : Territorio) (e : Ambiente)
    (r : Int × Territorio × Territorio × Ambiente)
    (h : atacar atacante defensor e = some r) :
    r.2.1.corExercito = atacante.corExercito ∧
    (r.2.2.1.corExercito = defensor.corExercito ∨
      r.2.2.1.corExercito = atacante.corExercito) := by
  by_cases hTropas : atacante.quantidadeTropas ≤ 1
  · have hEq : atacar atacante defensor e = some (0, atacante, defensor, e) := by
      simp [atacar, hTropas]
    rw [hEq] at h
    cases h
    exact ⟨rfl, Or.inl rfl⟩
  · cases hP : perdasDaBatalha (sortearDado e).1 (sortearDado (sortearDado e).2).1 with
    | mk perdasAtaque perdasDefesa =>
      obtain ⟨hResiste, hForcada, hTransfere⟩ :=
        atacar_resultado atacante defensor e perdasAtaque perdasDefesa (by omega) hP
      by_cases hConq : defensor.quantidadeTropas - perdasDefesa ≤ 0
      · by_cases hMover : atacante.quantidadeTropas - perdasAtaque > 1
        · rw [hTransfere hConq hMover] at h
          cases hLer : lerTropasParaMover 1 (atacante.quantidadeTropas - perdasAtaque - 1)
              e.entrada with
          | none => simp [hLer] at h
          | some p =>
            obtain ⟨t, resto⟩ := p
            simp only [hLer, Option.some.injEq] at h
            subst h
            exact ⟨rfl, Or.inr rfl⟩
        · rw [hForcada hConq hMover] at h
          cases h
          exact ⟨rfl, Or.inr rfl⟩
      · rw [hResiste (by omega)] at h
        cases h
        exact ⟨rfl, Or.inl rfl⟩

/-- What `gerenciarFaseDeAtaque` can do to the array: leave it as it is, or
store the two territories returned by `atacar` called on two of its
elements. -/
theorem gerenciarFaseDeAtaque_territorios (territorios : List Territorio)
    (territoriosConquistados : Int) (e : Ambiente)
    (r : List Territorio × Int × Ambiente)
    (h : gerenciarFaseDeAtaque territorios territoriosConquistados e = some r) :
    r.1 = territorios ∨
    ∃ (i j : Nat) (atacante defensor : Territorio) (e2 : Ambiente)
      (q : Int × Territorio × Territorio × Ambiente),
      territorios[i]? = some atacante ∧ territorios[j]? = some defensor ∧
      atacar atacante defensor e2 = some q ∧
      r.1 = (territorios.set i q.2.1).set j q.2.2.1 := by
  unfold gerenciarFaseDeAtaque at h
  simp only at h
  split at h
  · cases h
  · split at h
    · cases h
      exact Or.inl rfl
    · split at h
      · cases h
      · split at h
        · split at h
          · rename_i atacante defensor hA hD
            split at h
            · cases h
              exact Or.inl rfl
            · split at h
              · cases h
              · rename_i conquistado atacante1 defensor1 e3 hAtq
                cases h
                exact Or.inr ⟨_, _, atacante, defensor, _, _, hA, hD, hAtq, rfl⟩
          · cases h
        · cases h
          exact Or.inl rfl

theorem gerenciarFaseDeAtaque_sem_cor (cor : String) (territorios : List Territorio)
    (territoriosConquistados : Int) (e : Ambiente)
    (r : List Territorio × Int × Ambiente)
    (hSem : ∀ t ∈ territorios, t.corExercito ≠ cor)
    (h : gerenciarFaseDeAtaque territorios territoriosConquistados e = some r) :
    ∀ t ∈ r.1, t.corExercito ≠ cor := by
  rcases gerenciarFaseDeAtaque_territorios territorios territoriosConquistados e r h with
    hEq | ⟨i, j, atacante, defensor, e2, q, hA, hD, hAtq, hEq⟩
  · rw [hEq]
    exact hSem
  · have hAm : atacante ∈ territorios := List.getElem?_mem hA
    have hDm : defensor ∈ territorios := List.getElem?_mem hD
    obtain ⟨hCorA, hCorD⟩ := atacar_cores atacante defensor e2 q hAtq
    intro t ht
    rw [hEq] at ht
    rcases List.mem_or_eq_of_mem_set ht with ht1 | ht1
    · rcases List.mem_or_eq_of_mem_set ht1 with ht2 | ht2
      · exact hSem t ht2
      · rw [ht2, hCorA]
        exact hSem atacante hAm
    · rw [ht1]
      rcases hCorD with hC | hC
      · rw [hC]
        exact hSem defensor hDm
      · rw [hC]
        exact hSem atacante hAm

theorem ataquesSucessivos_sem_cor (cor : String) (n : Nat) :
    ∀ (territorios : List Territorio) (territoriosConquistados : Int) (e : Ambiente)
      (r : List Territorio × Int × Ambiente),
      (∀ t ∈ territorios, t.corExercito ≠ cor) →
      ataquesSucessivos n territorios territoriosConquistados e = some r →
      ∀ t ∈ r.1, t.corExercito ≠ cor := by
  induction n with
  | zero =>
    intro territorios territoriosConquistados e r hSem h
    simp only [ataquesSucessivos, Option.some.injEq] at h
    rw [← h]
    exact hSem
  | succ n ih =>
    intro territorios territoriosConquistados e r hSem h
    cases hG : gerenciarFaseDeAtaque territorios territoriosConquistados e with
    | none => simp [ataquesSucessivos, hG] at h
    | some p =>
      obtain ⟨territorios1, territoriosConquistados1, e1⟩ := p
      simp only [ataquesSucessivos, hG] at h
      exact ih territorios1 territoriosConquistados1 e1 r
        (gerenciarFaseDeAtaque_sem_cor cor territorios territoriosConquistados e _ hSem hG) h

/-- C12: a completed DestroyFaction mission never reverts.  In an array where
no territory has the colour `corAlvo`, whatever the indices, the dice and the
transfer read: no territory handed back by `atacar` called on two of its
elements has that colour, no territory has it after one call of
`gerenciarFaseDeAtaque`, nor after any number of successive calls, and
`verificarMissaoCumprida` for a DestroyFaction mission against `corAlvo` is 1
on every array so reached. -/
theorem destruir_cor_nunca_reverte (corAlvo : String) (territorios : List Territorio)
    (hSem : ∀ t ∈ territorios, t.corExercito ≠ corAlvo) :
    (∀ atacante ∈ territorios, ∀ defensor ∈ territorios,
      ∀ (e : Ambiente) (r : Int × Territorio × Territorio × Ambiente),
        atacar atacante defensor e = some r →
        r.2.1.corExercito ≠ corAlvo ∧ r.2.2.1.corExercito ≠ corAlvo) ∧
    (∀ (territoriosConquistados : Int) (e : Ambiente)
      (r : List Territorio × Int × Ambiente),
        gerenciarFaseDeAtaque territorios territoriosConquistados e = some r →
        ∀ t ∈ r.1, t.corExercito ≠ corAlvo) ∧
    (∀ (n : Nat) (territoriosConquistados : Int) (e : Ambiente)
      (r : List Territorio × Int × Ambiente),
        ataquesSucessivos n territorios territoriosConquistados e = some r →
        (∀ t ∈ r.1, t.corExercito ≠ corAlvo) ∧
        ∀ missao : Missao, missao.tipo = MissaoTipo.DESTRUIR_COR →
          missao.corAlvo = corAlvo →
          verificarMissaoCumprida missao r.1 r.2.1 = 1) := by
  refine ⟨?_, ?_, ?_⟩
  · intro atacante hA defensor hD e r hr
    obtain ⟨hCorA, hCorD⟩ := atacar_cores atacante defensor e r hr
    refine ⟨by rw [hCorA]; exact hSem atacante hA, ?_⟩
    rcases hCorD with hC | hC
    · rw [hC]
      exact hSem defensor hD
    · rw [hC]
      exact hSem atacante hA
  · intro territoriosConquistados e r hr
    exact gerenciarFaseDeAtaque_sem_cor corAlvo territorios territoriosConquistados e r hSem hr
  · intro n territoriosConquistados e r hr
    have hDepois := ataquesSucessivos_sem_cor corAlvo n territorios territoriosConquistados e r
      hSem hr
    refine ⟨hDepois, ?_⟩
    intro missao hTipo hAlvo
    simp only [verificarMissaoCumprida, hTipo, hAlvo]
    exact (verificarCorDestruida_iff corAlvo r.1).mpr hDepois

theorem destruir_cor_nunca_reverte_witness :
    (∀ t ∈ cenario, t.corExercito ≠ "yellow") ∧
    ataquesSucessivos 2 cenario 0 (ambienteDe [5, 1] [1, 4, 3, 2, 3]) =
      some ([⟨"A", "red", 2⟩, ⟨"B", "blue", 3⟩, ⟨"C", "blue", 2⟩, ⟨"D", "red", 3⟩], 1,
        { ambienteDe [5, 1] [1, 4, 3, 2, 3] with sorteios := 2, entrada := [] }) ∧
    verificarMissaoCumprida ⟨MissaoTipo.DESTRUIR_COR, "", "yellow", 0⟩
      [⟨"A", "red", 2⟩, ⟨"B", "blue", 3⟩, ⟨"C", "blue", 2⟩, ⟨"D", "red", 3⟩] 1 = 1 :=
  ⟨by decide, rfl,
    (((destruir_cor_nunca_reverte "yellow" cenario (by decide)).2.2 2 0
      (ambienteDe [5, 1] [1, 4, 3, 2, 3])
      ([⟨"A", "red", 2⟩, ⟨"B", "blue", 3⟩, ⟨"C", "blue", 2⟩, ⟨"D", "red", 3⟩], 1,
        { ambienteDe [5, 1] [1, 4, 3, 2, 3] with sorteios := 2, entrada := [] })
      rfl).2 ⟨MissaoTipo.DESTRUIR_COR, "", "yellow", 0⟩ rfl rfl)⟩

end War
